import Mathlib

/-!
# Asset-management chaincode: embedding of `src/chaincode/assetcc.go`

The contract keeps two kinds of records, investors and assets, as JSON documents in
one keyed ledger store.  The embedding follows the Go source line by line:

* Go `int` is a 64-bit two's complement integer: values are `Int`s kept inside
  `[minInt, maxInt]`, and `+`, `-`, `*` wrap around (`GoInt.add`, `GoInt.sub`, `GoInt.mul`).
* A Go `map[string]int` is an association list read through `Holdings.get`; a nil
  map is `none`.  Reading a nil map gives `0`, writing to it is a run-time panic.
* `json.Marshal` / `json.Unmarshal` are modelled on documents (`Doc`): a list of
  tagged fields.  Decoding ignores unknown fields and leaves absent fields at their
  zero value, which is what happens when an asset document is decoded as an investor.
* The ledger stub is modelled by its transaction record (`Tx`): the keys read, the
  write set staged by `PutState`, the events set by `SetEvent`, and the returned error.
  The ledger host commits the write set only when the call returns no error
  (`ledgerAfter`).  The stub's `PutState` rejects the empty key, and `CreateUser` and
  `RegisterAsset` return that error.  `SubscribeAsset` and `RedeemAsset` write under the
  two keys they have read a record from, and no record is ever stored under the empty
  key (`run_get_empty_key`), so their writes are staged.  Apart from the empty key,
  store reads and writes do not fail in this model.
* `for ... range` over a Go map visits the entries in an order the run time picks; that
  order is a parameter (`rangeOrder`) of `GetPortfolio`.
-/

namespace AssetCC

/-! ## Definitions -/

namespace GoInt

/-- Smallest value of a Go `int` (64 bit). -/
def minInt : Int := -9223372036854775808

/-- Largest value of a Go `int` (64 bit). -/
def maxInt : Int := 9223372036854775807

/-- Values a Go `int` can hold. -/
def InRange (x : Int) : Prop := -9223372036854775808 ≤ x ∧ x ≤ 9223372036854775807

instance (x : Int) : Decidable (InRange x) := by
  unfold InRange; exact inferInstance

/-- Two's complement wrap-around of a mathematical integer into the `int` range. -/
def wrap (x : Int) : Int :=
  (x + 9223372036854775808) % 18446744073709551616 - 9223372036854775808

/-- Go `a + b` on `int`. -/
def add (a b : Int) : Int := wrap (a + b)

/-- Go `a - b` on `int`. -/
def sub (a b : Int) : Int := wrap (a - b)

/-- Go `a * b` on `int`. -/
def mul (a b : Int) : Int := wrap (a * b)

end GoInt

/-- Go map `map[string]int` (key: ISIN, value: number of units). -/
abbrev Holdings := List (String × Int)

/-- Read `m[k]`: the zero value when the key is absent. -/
def Holdings.get (m : Holdings) (k : String) : Int :=
  match m with
  | [] => 0
  | (k', v) :: rest => if k' = k then v else Holdings.get rest k

/-- Write `m[k] = v`. -/
def Holdings.set (m : Holdings) (k : String) (v : Int) : Holdings :=
  match m with
  | [] => [(k, v)]
  | (k', v') :: rest => if k' = k then (k, v) :: rest else (k', v') :: Holdings.set rest k v

/-- Go struct `Asset`. -/
structure Asset where
  ISIN : String
  CompanyName : String
  AssetType : String
  TotalUnits : Int
  PricePerUnit : Int
  AvailableUnits : Int
  deriving DecidableEq, Repr

/-- Go struct `Investor`; `Subscribed = none` is the nil map. -/
structure Investor where
  InvestorID : String
  Balance : Int
  Subscribed : Option Holdings
  deriving DecidableEq, Repr

/-- Read `investor.Subscribed[isin]`; a nil map reads as `0`. -/
def Investor.units (i : Investor) (isin : String) : Int :=
  match i.Subscribed with
  | none => 0
  | some m => m.get isin

/-- Values of the JSON documents the contract stores. -/
inductive JVal where
  | null
  | num (n : Int)
  | str (s : String)
  | map (m : Holdings)
  deriving DecidableEq, Repr

/-- JSON object: its fields in order, each a tag and a value. -/
abbrev Doc := List (String × JVal)

/-- Value of the first field with the given tag. -/
def Doc.field (d : Doc) (tag : String) : Option JVal :=
  match d with
  | [] => none
  | (t, v) :: rest => if t = tag then some v else Doc.field rest tag

/-- Decode a field into a Go `string`: absent or null leaves the zero value. -/
def decodeString (d : Doc) (tag : String) : Except String String :=
  match d.field tag with
  | none => .ok ""
  | some .null => .ok ""
  | some (.str s) => .ok s
  | some _ => .error ("json: cannot unmarshal into Go struct field " ++ tag ++ " of type string")

/-- Decode a field into a Go `int`: absent or null leaves `0`; a number outside the
`int` range is a decoding error. -/
def decodeInt (d : Doc) (tag : String) : Except String Int :=
  match d.field tag with
  | none => .ok 0
  | some .null => .ok 0
  | some (.num n) =>
    if GoInt.InRange n then .ok n
    else .error ("json: cannot unmarshal number into Go struct field " ++ tag ++ " of type int")
  | some _ => .error ("json: cannot unmarshal into Go struct field " ++ tag ++ " of type int")

/-- Decode a field into a Go `map[string]int`: absent or null leaves the nil map. -/
def decodeMap (d : Doc) (tag : String) : Except String (Option Holdings) :=
  match d.field tag with
  | none => .ok none
  | some .null => .ok none
  | some (.map m) =>
    if m.all (fun e => decide (GoInt.InRange e.2)) then .ok (some m)
    else .error ("json: cannot unmarshal number into Go struct field " ++ tag ++ " of type int")
  | some _ =>
    .error ("json: cannot unmarshal into Go struct field " ++ tag ++ " of type map[string]int")

/-- The call `json.Marshal(asset)`. -/
def marshalAsset (a : Asset) : Doc :=
  [("isin", .str a.ISIN), ("company_name", .str a.CompanyName),
   ("asset_type", .str a.AssetType), ("total_units", .num a.TotalUnits),
   ("price_per_unit", .num a.PricePerUnit), ("available_units", .num a.AvailableUnits)]

/-- The call `json.Marshal(investor)`; a nil map is written as `null`. -/
def marshalInvestor (i : Investor) : Doc :=
  [("investor_id", .str i.InvestorID), ("balance", .num i.Balance),
   ("subscribed", match i.Subscribed with
                  | none => .null
                  | some m => .map m)]

/-- The call `json.Unmarshal(assetJSON, &asset)` on a zero `Asset`. -/
def unmarshalAsset (d : Doc) : Except String Asset :=
  match decodeString d "isin" with
  | .error e => .error e
  | .ok isin =>
  match decodeString d "company_name" with
  | .error e => .error e
  | .ok companyName =>
  match decodeString d "asset_type" with
  | .error e => .error e
  | .ok assetType =>
  match decodeInt d "total_units" with
  | .error e => .error e
  | .ok totalUnits =>
  match decodeInt d "price_per_unit" with
  | .error e => .error e
  | .ok pricePerUnit =>
  match decodeInt d "available_units" with
  | .error e => .error e
  | .ok availableUnits =>
    .ok { ISIN := isin, CompanyName := companyName, AssetType := assetType,
          TotalUnits := totalUnits, PricePerUnit := pricePerUnit,
          AvailableUnits := availableUnits }

/-- The call `json.Unmarshal(investorJSON, &investor)` on a zero `Investor`. -/
def unmarshalInvestor (d : Doc) : Except String Investor :=
  match decodeString d "investor_id" with
  | .error e => .error e
  | .ok investorID =>
  match decodeInt d "balance" with
  | .error e => .error e
  | .ok balance =>
  match decodeMap d "subscribed" with
  | .error e => .error e
  | .ok subscribed =>
    .ok { InvestorID := investorID, Balance := balance, Subscribed := subscribed }

/-- World state of the ledger: the document stored under each key. -/
abbrev Store := List (String × Doc)

/-- The call `GetState(key)`: `none` is the nil result of a key never written. -/
def Store.get (st : Store) (key : String) : Option Doc :=
  match st with
  | [] => none
  | (k, d) :: rest => if k = key then some d else Store.get rest key

/-- Effect of a committed `PutState(key, value)` on the world state. -/
def Store.put (st : Store) (key : String) (value : Doc) : Store :=
  match st with
  | [] => [(key, value)]
  | (k, d) :: rest => if k = key then (key, value) :: rest else (k, d) :: Store.put rest key value

/-- Apply a write set in the order the writes were staged. -/
def Store.apply (st : Store) (writes : List (String × Doc)) : Store :=
  match writes with
  | [] => st
  | (k, d) :: rest => Store.apply (st.put k d) rest

/-- What a contract call hands back instead of `nil`. -/
inductive Fault where
  | error (msg : String)
  | runtimePanic (msg : String)
  deriving DecidableEq, Repr

/-- Record of one transaction: returned error (`none` is `nil`), keys read by
`GetState`, write set staged by `PutState`, events passed to `SetEvent`. -/
structure Tx where
  err : Option Fault
  reads : List String
  writes : List (String × Doc)
  events : List (String × String)
  deriving DecidableEq, Repr

/-- World state after the ledger host has handled the transaction: the write set is
committed only when the call returned no error. -/
def ledgerAfter (st : Store) (tx : Tx) : Store :=
  match tx.err with
  | none => st.apply tx.writes
  | some _ => st

/-- Caller identity: the reply of `GetAttributeValue(name)`, a value and an error. -/
structure ClientIdentity where
  GetAttributeValue : String → String × Option String

/-- Reply of the ledger stub to `PutState(key, value)`: the stub rejects the empty key
with an error and stages the write under every other key (`none` is `nil`). -/
def PutState (key : String) (_value : Doc) : Option Fault :=
  if key = "" then some (.error "key must not be an empty string") else none

/-- Go `CreateUser`. -/
def CreateUser (_st : Store) (investorID : String) (balance : Int) : Tx :=
  let investor : Investor :=
    { InvestorID := investorID, Balance := balance, Subscribed := some [] }
  let investorJSON := marshalInvestor investor
  match PutState investorID investorJSON with
  | some e => { err := some e, reads := [], writes := [], events := [] }
  | none => { err := none, reads := [], writes := [(investorID, investorJSON)], events := [] }

/-- Go `RegisterAsset`. -/
def RegisterAsset (_st : Store) (isin companyName assetType : String)
    (totalUnits pricePerUnit : Int) : Tx :=
  let asset : Asset :=
    { ISIN := isin, CompanyName := companyName, AssetType := assetType,
      TotalUnits := totalUnits, PricePerUnit := pricePerUnit, AvailableUnits := totalUnits }
  let assetJSON := marshalAsset asset
  match PutState isin assetJSON with
  | some e => { err := some e, reads := [], writes := [], events := [] }
  | none => { err := none, reads := [], writes := [(isin, assetJSON)], events := [] }

/-- Go `SubscribeAsset`. -/
def SubscribeAsset (cid : ClientIdentity) (st : Store) (investorID isin : String)
    (units : Int) : Tx :=
  let userRole := (cid.GetAttributeValue "role").1
  let err := (cid.GetAttributeValue "role").2
  if err ≠ none ∨ userRole ≠ "Investor" then
    { err := some (.error "only investors can subscribe to assets"),
      reads := [], writes := [], events := [] }
  else
  match st.get investorID with
  | none =>
    { err := some (.error "investor not found"),
      reads := [investorID], writes := [], events := [] }
  | some investorJSON =>
  match unmarshalInvestor investorJSON with
  | .error e => { err := some (.error e), reads := [investorID], writes := [], events := [] }
  | .ok investor =>
  match st.get isin with
  | none =>
    { err := some (.error "asset not found"),
      reads := [investorID, isin], writes := [], events := [] }
  | some assetJSON =>
  match unmarshalAsset assetJSON with
  | .error e =>
    { err := some (.error e), reads := [investorID, isin], writes := [], events := [] }
  | .ok asset =>
  let totalCost := GoInt.mul units asset.PricePerUnit
  if investor.Balance < totalCost then
    { err := some (.error "insufficient balance to subscribe"),
      reads := [investorID, isin], writes := [], events := [] }
  else if units > asset.AvailableUnits then
    { err := some (.error "not enough available units"),
      reads := [investorID, isin], writes := [], events := [] }
  else
  match investor.Subscribed with
  | none =>
    { err := some (.runtimePanic "assignment to entry in nil map"),
      reads := [investorID, isin], writes := [], events := [] }
  | some subscribed =>
  let investor1 : Investor :=
    { investor with
      Subscribed := some (subscribed.set isin (GoInt.add (subscribed.get isin) units)),
      Balance := GoInt.sub investor.Balance totalCost }
  let asset1 : Asset :=
    { asset with AvailableUnits := GoInt.sub asset.AvailableUnits units }
  { err := none, reads := [investorID, isin],
    writes := [(investorID, marshalInvestor investor1), (isin, marshalAsset asset1)],
    events := [("SubscriptionEvent",
      "Investor " ++ investorID ++ " subscribed to " ++ toString units ++
        " units of asset " ++ isin)] }

/-- Go `RedeemAsset`. -/
def RedeemAsset (cid : ClientIdentity) (st : Store) (investorID isin : String)
    (units : Int) : Tx :=
  let userRole := (cid.GetAttributeValue "role").1
  let err := (cid.GetAttributeValue "role").2
  if err ≠ none ∨ userRole ≠ "Investor" then
    { err := some (.error "only investors can Redeem the assets"),
      reads := [], writes := [], events := [] }
  else
  match st.get investorID with
  | none =>
    { err := some (.error "investor not found"),
      reads := [investorID], writes := [], events := [] }
  | some investorJSON =>
  match unmarshalInvestor investorJSON with
  | .error e => { err := some (.error e), reads := [investorID], writes := [], events := [] }
  | .ok investor =>
  match st.get isin with
  | none =>
    { err := some (.error "asset not found"),
      reads := [investorID, isin], writes := [], events := [] }
  | some assetJSON =>
  match unmarshalAsset assetJSON with
  | .error e =>
    { err := some (.error e), reads := [investorID, isin], writes := [], events := [] }
  | .ok asset =>
  if investor.units isin < units then
    { err := some (.error "insufficient units to redeem"),
      reads := [investorID, isin], writes := [], events := [] }
  else
  match investor.Subscribed with
  | none =>
    { err := some (.runtimePanic "assignment to entry in nil map"),
      reads := [investorID, isin], writes := [], events := [] }
  | some subscribed =>
  let investor1 : Investor :=
    { investor with
      Subscribed := some (subscribed.set isin (GoInt.sub (subscribed.get isin) units)),
      Balance := GoInt.add investor.Balance (GoInt.mul units asset.PricePerUnit) }
  let asset1 : Asset :=
    { asset with AvailableUnits := GoInt.add asset.AvailableUnits units }
  { err := none, reads := [investorID, isin],
    writes := [(investorID, marshalInvestor investor1), (isin, marshalAsset asset1)],
    events := [("RedemptionEvent",
      "Investor " ++ investorID ++ " redeemed " ++ toString units ++
        " units of asset " ++ isin)] }

/-- Lines the loop of `GetPortfolio` appends, for the entries in the order visited. -/
def portfolioLines (entries : Holdings) : String :=
  match entries with
  | [] => ""
  | (isin, units) :: rest =>
    "- Asset: " ++ isin ++ ", Units: " ++ toString units ++ "\n" ++ portfolioLines rest

/-- Go `GetPortfolio`.  `rangeOrder` is the order in which the Go run time visits
the entries of the map in `for isin, units := range investor.Subscribed`. -/
def GetPortfolio (rangeOrder : Holdings → Holdings) (st : Store) (investorID : String) :
    String × Tx :=
  match st.get investorID with
  | none =>
    ("", { err := some (.error "investor not found"),
           reads := [investorID], writes := [], events := [] })
  | some investorJSON =>
  match unmarshalInvestor investorJSON with
  | .error e =>
    ("", { err := some (.error e), reads := [investorID], writes := [], events := [] })
  | .ok investor =>
  let portfolio := "Investor ID: " ++ investor.InvestorID ++ "\nBalance: " ++
    toString investor.Balance ++ "\nSubscribed Assets:\n"
  let entries : Holdings :=
    match investor.Subscribed with
    | none => []
    | some m => rangeOrder m
  (portfolio ++ portfolioLines entries,
   { err := none, reads := [investorID], writes := [], events := [] })

/-- Record an investor as the contract reads it: `GetState` then `json.Unmarshal`. -/
def readInvestor (st : Store) (investorID : String) : Option Investor :=
  match st.get investorID with
  | none => none
  | some d =>
    match unmarshalInvestor d with
    | .error _ => none
    | .ok i => some i

/-- Record an asset as the contract reads it: `GetState` then `json.Unmarshal`. -/
def readAsset (st : Store) (isin : String) : Option Asset :=
  match st.get isin with
  | none => none
  | some d =>
    match unmarshalAsset d with
    | .error _ => none
    | .ok a => some a

/-- Caller whose `role` attribute is `"Investor"`. -/
def investorCaller : ClientIdentity :=
  { GetAttributeValue := fun name => if name = "role" then ("Investor", none) else ("", none) }

/-- All unit counts of a map are Go `int` values. -/
def Holdings.InRange (m : Holdings) : Prop := ∀ e ∈ m, GoInt.InRange e.2

/-- An investor record whose integers are Go `int` values. -/
def Investor.InRange (i : Investor) : Prop :=
  GoInt.InRange i.Balance ∧ ∀ m, i.Subscribed = some m → Holdings.InRange m

/-- An asset record whose integers are Go `int` values. -/
def Asset.InRange (a : Asset) : Prop :=
  GoInt.InRange a.TotalUnits ∧ GoInt.InRange a.PricePerUnit ∧ GoInt.InRange a.AvailableUnits

/-- The caller passes the role check of `SubscribeAsset` and `RedeemAsset`. -/
def ClientIdentity.Authorized (cid : ClientIdentity) : Prop :=
  (cid.GetAttributeValue "role").2 = none ∧ (cid.GetAttributeValue "role").1 = "Investor"

instance (cid : ClientIdentity) : Decidable cid.Authorized := by
  unfold ClientIdentity.Authorized
  exact inferInstance

/-- Investor record written by a successful `SubscribeAsset`. -/
def subscribedInvestor (inv : Investor) (a : Asset) (subscribed : Holdings) (isin : String)
    (units : Int) : Investor :=
  { inv with
    Subscribed := some (subscribed.set isin (GoInt.add (subscribed.get isin) units)),
    Balance := GoInt.sub inv.Balance (GoInt.mul units a.PricePerUnit) }

/-- Asset record written by a successful `SubscribeAsset`. -/
def subscribedAsset (a : Asset) (units : Int) : Asset :=
  { a with AvailableUnits := GoInt.sub a.AvailableUnits units }

/-- Investor record written by a successful `RedeemAsset`. -/
def redeemedInvestor (inv : Investor) (a : Asset) (subscribed : Holdings) (isin : String)
    (units : Int) : Investor :=
  { inv with
    Subscribed := some (subscribed.set isin (GoInt.sub (subscribed.get isin) units)),
    Balance := GoInt.add inv.Balance (GoInt.mul units a.PricePerUnit) }

/-- Asset record written by a successful `RedeemAsset`. -/
def redeemedAsset (a : Asset) (units : Int) : Asset :=
  { a with AvailableUnits := GoInt.add a.AvailableUnits units }

/-- Ledger of the scenario of the client driver: one investor, one asset. -/
def scenarioStore : Store :=
  ledgerAfter (ledgerAfter [] (CreateUser [] "investor1" 10000))
    (RegisterAsset (ledgerAfter [] (CreateUser [] "investor1" 10000))
      "US1234567890" "Tech Corp" "Equity" 1000 50)

/-- Ledger holding the single investor `investor1` with balance 100. -/
def collisionStore : Store := ledgerAfter [] (CreateUser [] "investor1" 100)

/-- One invocation of the contract by a submitting client. -/
inductive Call where
  | createUser (investorID : String) (balance : Int)
  | registerAsset (isin companyName assetType : String) (totalUnits pricePerUnit : Int)
  | subscribeAsset (cid : ClientIdentity) (investorID isin : String) (units : Int)
  | redeemAsset (cid : ClientIdentity) (investorID isin : String) (units : Int)
  | getPortfolio (rangeOrder : Holdings → Holdings) (investorID : String)

/-- Transaction record of an invocation on the world state `st`. -/
def Call.tx (st : Store) (c : Call) : Tx :=
  match c with
  | .createUser investorID balance => CreateUser st investorID balance
  | .registerAsset isin companyName assetType totalUnits pricePerUnit =>
    RegisterAsset st isin companyName assetType totalUnits pricePerUnit
  | .subscribeAsset cid investorID isin units => SubscribeAsset cid st investorID isin units
  | .redeemAsset cid investorID isin units => RedeemAsset cid st investorID isin units
  | .getPortfolio rangeOrder investorID => (GetPortfolio rangeOrder st investorID).2

/-- World state after one invocation. -/
def exec (st : Store) (c : Call) : Store := ledgerAfter st (c.tx st)

/-- World state after a sequence of invocations, each a transaction of its own. -/
def run (st : Store) (calls : List Call) : Store :=
  match calls with
  | [] => st
  | c :: rest => run (exec st c) rest

/-- Ledger in which `investor1` holds -5 units of the asset, reached by a subscription
of -5 units. -/
def negativeHoldingStore : Store :=
  run [] [.createUser "investor1" 0,
          .registerAsset "US1234567890" "Tech Corp" "Equity" 10 1,
          .subscribeAsset investorCaller "investor1" "US1234567890" (-5)]

/-- Ledger in which `investor1` holds 9223372036854775807 units of the asset and one
more unit is available, reached by registering the asset a second time. -/
def fullHoldingStore : Store :=
  run [] [.createUser "investor1" 0,
          .registerAsset "US1234567890" "Tech Corp" "Equity" 9223372036854775807 0,
          .subscribeAsset investorCaller "investor1" "US1234567890" 9223372036854775807,
          .registerAsset "US1234567890" "Tech Corp" "Equity" 1 0]

/-- Ledger with an investor of balance 10000 and an asset of 10 units at price 1. -/
def smallAssetStore : Store :=
  run [] [.createUser "investor1" 10000,
          .registerAsset "US1234567890" "Tech Corp" "Equity" 10 1]

/-- Caller whose `role` attribute is `"Issuer"`. -/
def issuerCaller : ClientIdentity :=
  { GetAttributeValue := fun name => if name = "role" then ("Issuer", none) else ("", none) }

/-- Ledger of the scenario after the subscription of 100 units. -/
def scenarioSubscribed : Store :=
  ledgerAfter scenarioStore
    (SubscribeAsset investorCaller scenarioStore "investor1" "US1234567890" 100)

/-- Ledger of the scenario after the redemption of 50 units. -/
def scenarioRedeemed : Store :=
  ledgerAfter scenarioSubscribed
    (RedeemAsset investorCaller scenarioSubscribed "investor1" "US1234567890" 50)

/-- The zero value of the Go struct `Asset`. -/
def zeroAsset : Asset :=
  { ISIN := "", CompanyName := "", AssetType := "", TotalUnits := 0, PricePerUnit := 0,
    AvailableUnits := 0 }

/-- Units of `isin` recorded in a stored document, the document decoded as an investor. -/
def unitsHeldIn (d : Doc) (isin : String) : Int :=
  match unmarshalInvestor d with
  | .ok i => i.units isin
  | .error _ => 0

/-- Units of `isin` held by all the investors of the store together. -/
def held (st : Store) (isin : String) : Int :=
  match st with
  | [] => 0
  | (_, d) :: rest => unitsHeldIn d isin + held rest isin

/-- Invariant of the ledgers built by regular invocations.
`pure`: a document that decodes as an investor with a holdings map decodes as the zero
asset.  `nonneg`: no holding is negative.  `asset`: for each key, the units held by the
investors and the available units together stay within the total units.  `absent`: no
investor holds units under a key that stores no record. -/
structure LedgerInv (st : Store) : Prop where
  pure : ∀ k d i, (k, d) ∈ st → unmarshalInvestor d = .ok i → i.Subscribed ≠ none →
    unmarshalAsset d = .ok zeroAsset
  nonneg : ∀ k d, (k, d) ∈ st → ∀ isin, 0 ≤ unitsHeldIn d isin
  asset : ∀ isin a, readAsset st isin = some a →
    0 ≤ a.AvailableUnits ∧ held st isin + a.AvailableUnits ≤ a.TotalUnits
  absent : ∀ isin, st.get isin = none → held st isin = 0

/-- The arguments of the invocation are Go `int` values. -/
def Call.InRange (c : Call) : Prop :=
  match c with
  | .createUser _ balance => GoInt.InRange balance
  | .registerAsset _ _ _ totalUnits pricePerUnit =>
    GoInt.InRange totalUnits ∧ GoInt.InRange pricePerUnit
  | .subscribeAsset _ _ _ units => GoInt.InRange units
  | .redeemAsset _ _ _ units => GoInt.InRange units
  | .getPortfolio _ _ => True

/-- Regular invocation on the world state `st`: the arguments are Go `int` values, unit
counts are not negative, and `CreateUser` and `RegisterAsset` address a key of which no
investor of the store holds units. -/
def Call.Regular (st : Store) (c : Call) : Prop :=
  c.InRange ∧
  match c with
  | .createUser investorID _ => held st investorID = 0
  | .registerAsset isin _ _ totalUnits _ => held st isin = 0 ∧ 0 ≤ totalUnits
  | .subscribeAsset _ _ _ units => 0 ≤ units
  | .redeemAsset _ _ _ units => 0 ≤ units
  | .getPortfolio _ _ => True

/-- Every invocation of the sequence is regular on the world state it meets. -/
def RegularRun (st : Store) (calls : List Call) : Prop :=
  match calls with
  | [] => True
  | c :: rest => c.Regular st ∧ RegularRun (exec st c) rest

instance Call.decInRange : (c : Call) → Decidable c.InRange
  | .createUser _ balance => inferInstanceAs (Decidable (GoInt.InRange balance))
  | .registerAsset _ _ _ totalUnits pricePerUnit =>
    inferInstanceAs (Decidable (GoInt.InRange totalUnits ∧ GoInt.InRange pricePerUnit))
  | .subscribeAsset _ _ _ units => inferInstanceAs (Decidable (GoInt.InRange units))
  | .redeemAsset _ _ _ units => inferInstanceAs (Decidable (GoInt.InRange units))
  | .getPortfolio _ _ => inferInstanceAs (Decidable True)

instance Call.decRegular (st : Store) : (c : Call) → Decidable (c.Regular st)
  | .createUser investorID balance =>
    inferInstanceAs (Decidable ((Call.createUser investorID balance).InRange ∧
      held st investorID = 0))
  | .registerAsset isin companyName assetType totalUnits pricePerUnit =>
    inferInstanceAs (Decidable
      ((Call.registerAsset isin companyName assetType totalUnits pricePerUnit).InRange ∧
        (held st isin = 0 ∧ 0 ≤ totalUnits)))
  | .subscribeAsset cid investorID isin units =>
    inferInstanceAs (Decidable
      ((Call.subscribeAsset cid investorID isin units).InRange ∧ 0 ≤ units))
  | .redeemAsset cid investorID isin units =>
    inferInstanceAs (Decidable
      ((Call.redeemAsset cid investorID isin units).InRange ∧ 0 ≤ units))
  | .getPortfolio rangeOrder investorID =>
    inferInstanceAs (Decidable ((Call.getPortfolio rangeOrder investorID).InRange ∧ True))

instance RegularRun.dec : (st : Store) → (calls : List Call) → Decidable (RegularRun st calls)
  | _, [] => isTrue trivial
  | st, c :: rest =>
    @instDecidableAnd _ _ (Call.decRegular st c) (RegularRun.dec (AssetCC.exec st c) rest)

/-- Invocations of the scenario of the client driver. -/
def scenarioCalls : List Call :=
  [.createUser "investor1" 10000,
   .registerAsset "US1234567890" "Tech Corp" "Equity" 1000 50,
   .subscribeAsset investorCaller "investor1" "US1234567890" 100,
   .redeemAsset investorCaller "investor1" "US1234567890" 50]

/-- Ledger in which an asset is registered a second time while units of it are held. -/
def reRegisteredStore : Store :=
  run [] [.createUser "investor1" 100,
          .registerAsset "US1234567890" "Tech Corp" "Equity" 10 1,
          .subscribeAsset investorCaller "investor1" "US1234567890" 5,
          .registerAsset "US1234567890" "Tech Corp" "Equity" 3 1,
          .redeemAsset investorCaller "investor1" "US1234567890" 5]

/-- Ledger in which `CreateUser` is applied to the key of an asset while units of it are
held. -/
def overwrittenAssetStore : Store :=
  run [] [.createUser "investor1" 100,
          .registerAsset "US1234567890" "Tech Corp" "Equity" 10 1,
          .subscribeAsset investorCaller "investor1" "US1234567890" 5,
          .createUser "US1234567890" 0,
          .redeemAsset investorCaller "investor1" "US1234567890" 5]

/-- Solvent invocation on the world state `st`: the arguments are Go `int` values, an
initial balance and a number of units subscribed or redeemed are not negative, and an
asset is registered under a key of which no investor of the store holds units, at a
non-negative price at which all its units together are worth a Go `int`. -/
def Call.Solvent (st : Store) (c : Call) : Prop :=
  c.InRange ∧
  match c with
  | .createUser _ balance => 0 ≤ balance
  | .registerAsset isin _ _ totalUnits pricePerUnit =>
    held st isin = 0 ∧ 0 ≤ pricePerUnit ∧ totalUnits * pricePerUnit ≤ GoInt.maxInt
  | .subscribeAsset _ _ _ units => 0 ≤ units
  | .redeemAsset _ _ _ units => 0 ≤ units
  | .getPortfolio _ _ => True

/-- Every invocation of the sequence is solvent on the world state it meets. -/
def SolventRun (st : Store) (calls : List Call) : Prop :=
  match calls with
  | [] => True
  | c :: rest => c.Solvent st ∧ SolventRun (exec st c) rest

instance Call.decSolvent (st : Store) : (c : Call) → Decidable (c.Solvent st)
  | .createUser investorID balance =>
    inferInstanceAs (Decidable ((Call.createUser investorID balance).InRange ∧ 0 ≤ balance))
  | .registerAsset isin companyName assetType totalUnits pricePerUnit =>
    inferInstanceAs (Decidable
      ((Call.registerAsset isin companyName assetType totalUnits pricePerUnit).InRange ∧
        (held st isin = 0 ∧ 0 ≤ pricePerUnit ∧ totalUnits * pricePerUnit ≤ GoInt.maxInt)))
  | .subscribeAsset cid investorID isin units =>
    inferInstanceAs (Decidable
      ((Call.subscribeAsset cid investorID isin units).InRange ∧ 0 ≤ units))
  | .redeemAsset cid investorID isin units =>
    inferInstanceAs (Decidable
      ((Call.redeemAsset cid investorID isin units).InRange ∧ 0 ≤ units))
  | .getPortfolio rangeOrder investorID =>
    inferInstanceAs (Decidable ((Call.getPortfolio rangeOrder investorID).InRange ∧ True))

instance SolventRun.dec : (st : Store) → (calls : List Call) → Decidable (SolventRun st calls)
  | _, [] => isTrue trivial
  | st, c :: rest =>
    @instDecidableAnd _ _ (Call.decSolvent st c) (SolventRun.dec (AssetCC.exec st c) rest)

/-- Ledger in which a redemption of -11 units takes 11 units out of an asset of 10 and
their price out of a balance of 0. -/
def negativeRedeemStore : Store :=
  run [] [.createUser "investor1" 0,
          .registerAsset "US1234567890" "Tech Corp" "Equity" 10 1,
          .redeemAsset investorCaller "investor1" "US1234567890" (-11)]

/-- Ledger in which `investor1` holds one unit of each of two assets. -/
def twoHoldingsStore : Store :=
  run [] [.createUser "investor1" 10000,
          .registerAsset "US1234567890" "Tech Corp" "Equity" 1000 50,
          .registerAsset "US0987654321" "Steel Corp" "Equity" 1000 20,
          .subscribeAsset investorCaller "investor1" "US1234567890" 1,
          .subscribeAsset investorCaller "investor1" "US0987654321" 1]

/-- Ledger with an investor of balance 0 and an asset of 4294967296 units at price
4294967296. -/
def wrapStore : Store :=
  run [] [.createUser "investor1" 0,
          .registerAsset "US1234567890" "Tech Corp" "Equity" 4294967296 4294967296]

/-- Ledger holding the scenario asset only. -/
def assetOnlyStore : Store :=
  run [] [.registerAsset "US1234567890" "Tech Corp" "Equity" 1000 50]

/-- Ledger holding two assets and no investor. -/
def twoAssetsStore : Store :=
  run [] [.registerAsset "US1234567890" "Tech Corp" "Equity" 1000 50,
          .registerAsset "US0987654321" "Steel Corp" "Equity" 1000 20]

/-- Document written by the contract: the encoding of an investor or of an asset whose
integers are Go `int` values. -/
def Doc.Written (d : Doc) : Prop :=
  (∃ i : Investor, i.InRange ∧ d = marshalInvestor i) ∨
    (∃ a : Asset, a.InRange ∧ d = marshalAsset a)

/-- Store in which every document read was written by the contract. -/
def Store.Written (st : Store) : Prop := ∀ k d, st.get k = some d → Doc.Written d

/-- Ledger with an investor of balance 0 and an asset of 10 units at price 4294967296. -/
def wrapSmallStore : Store :=
  run [] [.createUser "investor1" 0,
          .registerAsset "US1234567890" "Tech Corp" "Equity" 10 4294967296]

/-- Invocations of the scenario of the client driver, followed by a second `CreateUser`
for the same investor. -/
def reCreateCalls : List Call :=
  [.createUser "investor1" 10000,
   .registerAsset "US1234567890" "Tech Corp" "Equity" 1000 50,
   .subscribeAsset investorCaller "investor1" "US1234567890" 100,
   .redeemAsset investorCaller "investor1" "US1234567890" 50,
   .createUser "investor1" 5]

theorem GoInt.wrap_inRange (x : Int) : GoInt.InRange (GoInt.wrap x) := by
  unfold GoInt.InRange GoInt.wrap
  omega

theorem GoInt.wrap_of_inRange {x : Int} (h : GoInt.InRange x) : GoInt.wrap x = x := by
  unfold GoInt.InRange at h
  unfold GoInt.wrap
  omega

theorem Holdings.get_set_same (m : Holdings) (k : String) (v : Int) :
    (m.set k v).get k = v := by
  induction m with
  | nil => simp [Holdings.set, Holdings.get]
  | cons e rest ih =>
    obtain ⟨k', v'⟩ := e
    by_cases hk : k' = k
    · simp [Holdings.set, Holdings.get, hk]
    · simp [Holdings.set, Holdings.get, hk, ih]

theorem Holdings.get_set_ne (m : Holdings) {k k' : String} (v : Int) (hne : k ≠ k') :
    (m.set k v).get k' = m.get k' := by
  induction m with
  | nil => simp [Holdings.set, Holdings.get, hne]
  | cons e rest ih =>
    obtain ⟨k0, v0⟩ := e
    by_cases hk : k0 = k
    · subst hk
      simp [Holdings.set, Holdings.get, hne]
    · simp [Holdings.set, Holdings.get, hk, ih]

theorem Store.get_put_same (st : Store) (k : String) (d : Doc) :
    (st.put k d).get k = some d := by
  induction st with
  | nil => simp [Store.put, Store.get]
  | cons e rest ih =>
    obtain ⟨k', d'⟩ := e
    by_cases hk : k' = k
    · simp [Store.put, Store.get, hk]
    · simp [Store.put, Store.get, hk, ih]

theorem Store.get_put_ne (st : Store) {k k' : String} (d : Doc) (hne : k ≠ k') :
    (st.put k d).get k' = st.get k' := by
  induction st with
  | nil => simp [Store.put, Store.get, hne]
  | cons e rest ih =>
    obtain ⟨k0, d0⟩ := e
    by_cases hk : k0 = k
    · subst hk
      simp [Store.put, Store.get, hne]
    · simp [Store.put, Store.get, hk, ih]

theorem Holdings.InRange_set {m : Holdings} (hm : m.InRange) (k : String) {v : Int}
    (hv : GoInt.InRange v) : (m.set k v).InRange := by
  induction m with
  | nil =>
    intro e he
    simp [Holdings.set] at he
    subst he
    exact hv
  | cons e rest ih =>
    obtain ⟨k', v'⟩ := e
    have hrest : Holdings.InRange rest := fun e he => hm e (List.mem_cons_of_mem _ he)
    by_cases hk : k' = k
    · intro e he
      simp [Holdings.set, hk] at he
      rcases he with rfl | he
      · exact hv
      · exact hrest e he
    · intro e he
      simp [Holdings.set, hk] at he
      rcases he with rfl | he
      · exact hm _ (List.mem_cons_self _ _)
      · exact ih hrest e he

theorem Holdings.get_inRange {m : Holdings} (hm : m.InRange) (k : String) :
    GoInt.InRange (m.get k) := by
  induction m with
  | nil => simp [Holdings.get, GoInt.InRange]
  | cons e rest ih =>
    obtain ⟨k', v'⟩ := e
    have hrest : Holdings.InRange rest := fun e he => hm e (List.mem_cons_of_mem _ he)
    by_cases hk : k' = k
    · simp only [Holdings.get, hk, if_true]
      exact hm (k', v') (List.mem_cons_self _ _)
    · simp only [Holdings.get, hk, if_false]
      exact ih hrest

theorem unmarshalInvestor_marshalInvestor {i : Investor} (h : i.InRange) :
    unmarshalInvestor (marshalInvestor i) = .ok i := by
  obtain ⟨id, bal, sub⟩ := i
  have hb : GoInt.InRange bal := h.1
  cases sub with
  | none =>
    simp [unmarshalInvestor, marshalInvestor, decodeString, decodeInt, decodeMap, Doc.field, hb]
  | some m =>
    have hall : (m.all fun e => decide (GoInt.InRange e.2)) = true := by
      rw [List.all_eq_true]
      intro e he
      exact decide_eq_true (h.2 m rfl e he)
    simp [unmarshalInvestor, marshalInvestor, decodeString, decodeInt, decodeMap, Doc.field, hb,
      hall]

theorem unmarshalAsset_marshalAsset {a : Asset} (h : a.InRange) :
    unmarshalAsset (marshalAsset a) = .ok a := by
  obtain ⟨isin, cn, ty, tot, p, av⟩ := a
  have h1 : GoInt.InRange tot := h.1
  have h2 : GoInt.InRange p := h.2.1
  have h3 : GoInt.InRange av := h.2.2
  simp [unmarshalAsset, marshalAsset, decodeString, decodeInt, Doc.field, h1, h2, h3]

theorem decodeInt_inRange {d : Doc} {tag : String} {n : Int} (h : decodeInt d tag = .ok n) :
    GoInt.InRange n := by
  unfold decodeInt at h
  split at h
  · cases h; simp [GoInt.InRange]
  · cases h; simp [GoInt.InRange]
  · split at h
    · cases h; assumption
    · cases h
  · cases h

theorem decodeMap_inRange {d : Doc} {tag : String} {m : Holdings}
    (h : decodeMap d tag = .ok (some m)) : Holdings.InRange m := by
  unfold decodeMap at h
  split at h
  · cases h
  · cases h
  · split at h
    · rename_i hall
      cases h
      simp only [List.all_eq_true, decide_eq_true_eq] at hall
      exact hall
    · cases h
  · cases h

theorem unmarshalInvestor_ok_iff {d : Doc} {i : Investor} :
    unmarshalInvestor d = .ok i ↔
      decodeString d "investor_id" = .ok i.InvestorID ∧ decodeInt d "balance" = .ok i.Balance ∧
        decodeMap d "subscribed" = .ok i.Subscribed := by
  obtain ⟨id, bal, sub⟩ := i
  unfold unmarshalInvestor
  cases decodeString d "investor_id" <;> cases decodeInt d "balance" <;>
    cases decodeMap d "subscribed" <;> simp

theorem unmarshalAsset_ok_iff {d : Doc} {a : Asset} :
    unmarshalAsset d = .ok a ↔
      decodeString d "isin" = .ok a.ISIN ∧ decodeString d "company_name" = .ok a.CompanyName ∧
        decodeString d "asset_type" = .ok a.AssetType ∧
        decodeInt d "total_units" = .ok a.TotalUnits ∧
        decodeInt d "price_per_unit" = .ok a.PricePerUnit ∧
        decodeInt d "available_units" = .ok a.AvailableUnits := by
  obtain ⟨isin, cn, ty, tot, p, av⟩ := a
  unfold unmarshalAsset
  cases decodeString d "isin" <;> cases decodeString d "company_name" <;>
    cases decodeString d "asset_type" <;> cases decodeInt d "total_units" <;>
    cases decodeInt d "price_per_unit" <;> cases decodeInt d "available_units" <;> simp

theorem unmarshalInvestor_inRange {d : Doc} {i : Investor} (h : unmarshalInvestor d = .ok i) :
    i.InRange := by
  obtain ⟨_, hb, hm⟩ := unmarshalInvestor_ok_iff.mp h
  exact ⟨decodeInt_inRange hb, fun m hmm => decodeMap_inRange (by rw [hm, hmm])⟩

theorem unmarshalAsset_inRange {d : Doc} {a : Asset} (h : unmarshalAsset d = .ok a) :
    a.InRange := by
  obtain ⟨_, _, _, h1, h2, h3⟩ := unmarshalAsset_ok_iff.mp h
  exact ⟨decodeInt_inRange h1, decodeInt_inRange h2, decodeInt_inRange h3⟩

/-- World state after `CreateUser`: unchanged for the empty key, the record written
otherwise. -/
theorem exec_createUser (st : Store) (investorID : String) (balance : Int) :
    exec st (.createUser investorID balance) =
      if investorID = "" then st
      else st.put investorID
        (marshalInvestor
          { InvestorID := investorID, Balance := balance, Subscribed := some [] }) := by
  by_cases hkey : investorID = ""
  · simp [exec, Call.tx, CreateUser, PutState, hkey, ledgerAfter]
  · simp [exec, Call.tx, CreateUser, PutState, hkey, ledgerAfter, Store.apply]

/-- World state after `RegisterAsset`: unchanged for the empty key, the record written
otherwise. -/
theorem exec_registerAsset (st : Store) (isin companyName assetType : String)
    (totalUnits pricePerUnit : Int) :
    exec st (.registerAsset isin companyName assetType totalUnits pricePerUnit) =
      if isin = "" then st
      else st.put isin
        (marshalAsset { ISIN := isin, CompanyName := companyName, AssetType := assetType,
                        TotalUnits := totalUnits, PricePerUnit := pricePerUnit,
                        AvailableUnits := totalUnits }) := by
  by_cases hkey : isin = ""
  · simp [exec, Call.tx, RegisterAsset, PutState, hkey, ledgerAfter]
  · simp [exec, Call.tx, RegisterAsset, PutState, hkey, ledgerAfter, Store.apply]

theorem SubscribeAsset_eval {cid : ClientIdentity} {st : Store} {investorID isin : String}
    (units : Int) {inv : Investor} {a : Asset} (hauth : cid.Authorized)
    (hi : readInvestor st investorID = some inv) (ha : readAsset st isin = some a) :
    SubscribeAsset cid st investorID isin units =
      if inv.Balance < GoInt.mul units a.PricePerUnit then
        { err := some (.error "insufficient balance to subscribe"),
          reads := [investorID, isin], writes := [], events := [] }
      else if units > a.AvailableUnits then
        { err := some (.error "not enough available units"),
          reads := [investorID, isin], writes := [], events := [] }
      else
      match inv.Subscribed with
      | none =>
        { err := some (.runtimePanic "assignment to entry in nil map"),
          reads := [investorID, isin], writes := [], events := [] }
      | some subscribed =>
        { err := none, reads := [investorID, isin],
          writes :=
            [(investorID, marshalInvestor
                { inv with
                  Subscribed := some (subscribed.set isin (GoInt.add (subscribed.get isin) units)),
                  Balance := GoInt.sub inv.Balance (GoInt.mul units a.PricePerUnit) }),
             (isin, marshalAsset
                { a with AvailableUnits := GoInt.sub a.AvailableUnits units })],
          events := [("SubscriptionEvent",
            "Investor " ++ investorID ++ " subscribed to " ++ toString units ++
              " units of asset " ++ isin)] } := by
  obtain ⟨h1, h2⟩ := hauth
  unfold readInvestor at hi
  unfold readAsset at ha
  unfold SubscribeAsset
  cases hg1 : st.get investorID with
  | none => simp [hg1] at hi
  | some d1 =>
    cases hd1 : unmarshalInvestor d1 with
    | error e => simp [hg1, hd1] at hi
    | ok inv0 =>
      cases hg2 : st.get isin with
      | none => simp [hg2] at ha
      | some d2 =>
        cases hd2 : unmarshalAsset d2 with
        | error e => simp [hg2, hd2] at ha
        | ok a0 =>
          simp [hg1, hd1] at hi
          simp [hg2, hd2] at ha
          subst hi ha
          simp [h1, h2, hd1, hd2]

theorem RedeemAsset_eval {cid : ClientIdentity} {st : Store} {investorID isin : String}
    (units : Int) {inv : Investor} {a : Asset} (hauth : cid.Authorized)
    (hi : readInvestor st investorID = some inv) (ha : readAsset st isin = some a) :
    RedeemAsset cid st investorID isin units =
      if inv.units isin < units then
        { err := some (.error "insufficient units to redeem"),
          reads := [investorID, isin], writes := [], events := [] }
      else
      match inv.Subscribed with
      | none =>
        { err := some (.runtimePanic "assignment to entry in nil map"),
          reads := [investorID, isin], writes := [], events := [] }
      | some subscribed =>
        { err := none, reads := [investorID, isin],
          writes :=
            [(investorID, marshalInvestor
                { inv with
                  Subscribed := some (subscribed.set isin (GoInt.sub (subscribed.get isin) units)),
                  Balance := GoInt.add inv.Balance (GoInt.mul units a.PricePerUnit) }),
             (isin, marshalAsset
                { a with AvailableUnits := GoInt.add a.AvailableUnits units })],
          events := [("RedemptionEvent",
            "Investor " ++ investorID ++ " redeemed " ++ toString units ++
              " units of asset " ++ isin)] } := by
  obtain ⟨h1, h2⟩ := hauth
  unfold readInvestor at hi
  unfold readAsset at ha
  unfold RedeemAsset
  cases hg1 : st.get investorID with
  | none => simp [hg1] at hi
  | some d1 =>
    cases hd1 : unmarshalInvestor d1 with
    | error e => simp [hg1, hd1] at hi
    | ok inv0 =>
      cases hg2 : st.get isin with
      | none => simp [hg2] at ha
      | some d2 =>
        cases hd2 : unmarshalAsset d2 with
        | error e => simp [hg2, hd2] at ha
        | ok a0 =>
          simp [hg1, hd1] at hi
          simp [hg2, hd2] at ha
          subst hi ha
          simp [h1, h2, hd1, hd2]

/-- A successful `SubscribeAsset` was authorized, found and decoded both records, passed
both guards and met a non-nil holdings map. -/
theorem SubscribeAsset_ok_inv {cid : ClientIdentity} {st : Store} {investorID isin : String}
    {units : Int} (h : (SubscribeAsset cid st investorID isin units).err = none) :
    cid.Authorized ∧ ∃ inv a subscribed,
      readInvestor st investorID = some inv ∧ readAsset st isin = some a ∧
      ¬ inv.Balance < GoInt.mul units a.PricePerUnit ∧ ¬ units > a.AvailableUnits ∧
      inv.Subscribed = some subscribed := by
  unfold SubscribeAsset at h
  by_cases hauth : (cid.GetAttributeValue "role").2 ≠ none ∨
      (cid.GetAttributeValue "role").1 ≠ "Investor"
  · simp [hauth] at h
  · have hA : cid.Authorized := by
      unfold ClientIdentity.Authorized
      push_neg at hauth
      exact hauth
    refine ⟨hA, ?_⟩
    simp only [hauth, if_false] at h
    cases hg1 : st.get investorID with
    | none => simp [hg1] at h
    | some d1 =>
      cases hd1 : unmarshalInvestor d1 with
      | error e => simp [hg1, hd1] at h
      | ok inv =>
        cases hg2 : st.get isin with
        | none => simp [hg1, hd1, hg2] at h
        | some d2 =>
          cases hd2 : unmarshalAsset d2 with
          | error e => simp [hg1, hd1, hg2, hd2] at h
          | ok a =>
            simp only [hg1, hd1, hg2, hd2] at h
            by_cases hb : inv.Balance < GoInt.mul units a.PricePerUnit
            · simp [hb] at h
            · by_cases hu : units > a.AvailableUnits
              · simp [hb, hu] at h
              · cases hs : inv.Subscribed with
                | none => simp [hb, hu, hs] at h
                | some m =>
                  exact ⟨inv, a, m, by simp [readInvestor, hg1, hd1],
                    by simp [readAsset, hg2, hd2], hb, hu, hs⟩

/-- A successful `RedeemAsset` was authorized, found and decoded both records, passed the
holdings guard and met a non-nil holdings map. -/
theorem RedeemAsset_ok_inv {cid : ClientIdentity} {st : Store} {investorID isin : String}
    {units : Int} (h : (RedeemAsset cid st investorID isin units).err = none) :
    cid.Authorized ∧ ∃ inv a subscribed,
      readInvestor st investorID = some inv ∧ readAsset st isin = some a ∧
      ¬ inv.units isin < units ∧ inv.Subscribed = some subscribed := by
  unfold RedeemAsset at h
  by_cases hauth : (cid.GetAttributeValue "role").2 ≠ none ∨
      (cid.GetAttributeValue "role").1 ≠ "Investor"
  · simp [hauth] at h
  · have hA : cid.Authorized := by
      unfold ClientIdentity.Authorized
      push_neg at hauth
      exact hauth
    refine ⟨hA, ?_⟩
    simp only [hauth, if_false] at h
    cases hg1 : st.get investorID with
    | none => simp [hg1] at h
    | some d1 =>
      cases hd1 : unmarshalInvestor d1 with
      | error e => simp [hg1, hd1] at h
      | ok inv =>
        cases hg2 : st.get isin with
        | none => simp [hg1, hd1, hg2] at h
        | some d2 =>
          cases hd2 : unmarshalAsset d2 with
          | error e => simp [hg1, hd1, hg2, hd2] at h
          | ok a =>
            simp only [hg1, hd1, hg2, hd2] at h
            by_cases hb : inv.units isin < units
            · simp [hb] at h
            · cases hs : inv.Subscribed with
              | none => simp [hb, hs] at h
              | some m =>
                exact ⟨inv, a, m, by simp [readInvestor, hg1, hd1],
                  by simp [readAsset, hg2, hd2], hb, hs⟩

theorem readInvestor_put_same (st : Store) (k : String) {i : Investor} (h : i.InRange) :
    readInvestor (st.put k (marshalInvestor i)) k = some i := by
  simp [readInvestor, Store.get_put_same, unmarshalInvestor_marshalInvestor h]

theorem readAsset_put_same (st : Store) (k : String) {a : Asset} (h : a.InRange) :
    readAsset (st.put k (marshalAsset a)) k = some a := by
  simp [readAsset, Store.get_put_same, unmarshalAsset_marshalAsset h]

theorem readInvestor_put_ne (st : Store) {k k' : String} (d : Doc) (hne : k ≠ k') :
    readInvestor (st.put k d) k' = readInvestor st k' := by
  simp [readInvestor, Store.get_put_ne st d hne]

theorem readAsset_put_ne (st : Store) {k k' : String} (d : Doc) (hne : k ≠ k') :
    readAsset (st.put k d) k' = readAsset st k' := by
  simp [readAsset, Store.get_put_ne st d hne]

theorem readInvestor_inRange {st : Store} {k : String} {i : Investor}
    (h : readInvestor st k = some i) : i.InRange := by
  unfold readInvestor at h
  cases hg : st.get k with
  | none => simp [hg] at h
  | some d =>
    cases hd : unmarshalInvestor d with
    | error e => simp [hg, hd] at h
    | ok i0 =>
      simp [hg, hd] at h
      subst h
      exact unmarshalInvestor_inRange hd

theorem readAsset_inRange {st : Store} {k : String} {a : Asset}
    (h : readAsset st k = some a) : a.InRange := by
  unfold readAsset at h
  cases hg : st.get k with
  | none => simp [hg] at h
  | some d =>
    cases hd : unmarshalAsset d with
    | error e => simp [hg, hd] at h
    | ok a0 =>
      simp [hg, hd] at h
      subst h
      exact unmarshalAsset_inRange hd

theorem subscribedInvestor_inRange {inv : Investor} (a : Asset) {subscribed : Holdings}
    (isin : String) (units : Int) (h : inv.InRange) (hs : inv.Subscribed = some subscribed) :
    (subscribedInvestor inv a subscribed isin units).InRange := by
  refine ⟨GoInt.wrap_inRange _, ?_⟩
  intro m hm
  simp only [subscribedInvestor, Option.some.injEq] at hm
  subst hm
  exact Holdings.InRange_set (h.2 _ hs) _ (GoInt.wrap_inRange _)

theorem redeemedInvestor_inRange {inv : Investor} (a : Asset) {subscribed : Holdings}
    (isin : String) (units : Int) (h : inv.InRange) (hs : inv.Subscribed = some subscribed) :
    (redeemedInvestor inv a subscribed isin units).InRange := by
  refine ⟨GoInt.wrap_inRange _, ?_⟩
  intro m hm
  simp only [redeemedInvestor, Option.some.injEq] at hm
  subst hm
  exact Holdings.InRange_set (h.2 _ hs) _ (GoInt.wrap_inRange _)

theorem subscribedAsset_inRange {a : Asset} (units : Int) (h : a.InRange) :
    (subscribedAsset a units).InRange :=
  ⟨h.1, h.2.1, GoInt.wrap_inRange _⟩

theorem redeemedAsset_inRange {a : Asset} (units : Int) (h : a.InRange) :
    (redeemedAsset a units).InRange :=
  ⟨h.1, h.2.1, GoInt.wrap_inRange _⟩

/-- Transaction record of a successful `SubscribeAsset`, from the records it read. -/
theorem SubscribeAsset_ok_eq {cid : ClientIdentity} {st : Store} {investorID isin : String}
    {units : Int} {inv : Investor} {a : Asset} {subscribed : Holdings}
    (hauth : cid.Authorized)
    (hi : readInvestor st investorID = some inv) (ha : readAsset st isin = some a)
    (hb : ¬ inv.Balance < GoInt.mul units a.PricePerUnit) (hu : ¬ units > a.AvailableUnits)
    (hs : inv.Subscribed = some subscribed) :
    SubscribeAsset cid st investorID isin units =
      { err := none, reads := [investorID, isin],
        writes := [(investorID, marshalInvestor (subscribedInvestor inv a subscribed isin units)),
                   (isin, marshalAsset (subscribedAsset a units))],
        events := [("SubscriptionEvent",
          "Investor " ++ investorID ++ " subscribed to " ++ toString units ++
            " units of asset " ++ isin)] } := by
  rw [SubscribeAsset_eval units hauth hi ha]
  simp only [hb, hu, if_false, hs]
  rfl

/-- Transaction record of a successful `RedeemAsset`, from the records it read. -/
theorem RedeemAsset_ok_eq {cid : ClientIdentity} {st : Store} {investorID isin : String}
    {units : Int} {inv : Investor} {a : Asset} {subscribed : Holdings}
    (hauth : cid.Authorized)
    (hi : readInvestor st investorID = some inv) (ha : readAsset st isin = some a)
    (hg : ¬ inv.units isin < units) (hs : inv.Subscribed = some subscribed) :
    RedeemAsset cid st investorID isin units =
      { err := none, reads := [investorID, isin],
        writes := [(investorID, marshalInvestor (redeemedInvestor inv a subscribed isin units)),
                   (isin, marshalAsset (redeemedAsset a units))],
        events := [("RedemptionEvent",
          "Investor " ++ investorID ++ " redeemed " ++ toString units ++
            " units of asset " ++ isin)] } := by
  rw [RedeemAsset_eval units hauth hi ha]
  simp only [hg, if_false, hs]
  rfl

/-- Store after a successful `SubscribeAsset` on two different keys, and the two
records read back from it. -/
theorem SubscribeAsset_after {cid : ClientIdentity} {st : Store} {investorID isin : String}
    {units : Int} {inv : Investor} {a : Asset} {subscribed : Holdings}
    (hne : investorID ≠ isin) (hauth : cid.Authorized)
    (hi : readInvestor st investorID = some inv) (ha : readAsset st isin = some a)
    (hb : ¬ inv.Balance < GoInt.mul units a.PricePerUnit) (hu : ¬ units > a.AvailableUnits)
    (hs : inv.Subscribed = some subscribed) :
    readInvestor (ledgerAfter st (SubscribeAsset cid st investorID isin units)) investorID =
        some (subscribedInvestor inv a subscribed isin units) ∧
      readAsset (ledgerAfter st (SubscribeAsset cid st investorID isin units)) isin =
        some (subscribedAsset a units) := by
  rw [SubscribeAsset_ok_eq hauth hi ha hb hu hs]
  simp only [ledgerAfter, Store.apply]
  constructor
  · rw [readInvestor_put_ne _ _ (Ne.symm hne)]
    exact readInvestor_put_same _ _
      (subscribedInvestor_inRange a isin units (readInvestor_inRange hi) hs)
  · exact readAsset_put_same _ _ (subscribedAsset_inRange units (readAsset_inRange ha))

/-- Store after a successful `RedeemAsset` on two different keys, and the two records
read back from it. -/
theorem RedeemAsset_after {cid : ClientIdentity} {st : Store} {investorID isin : String}
    {units : Int} {inv : Investor} {a : Asset} {subscribed : Holdings}
    (hne : investorID ≠ isin) (hauth : cid.Authorized)
    (hi : readInvestor st investorID = some inv) (ha : readAsset st isin = some a)
    (hg : ¬ inv.units isin < units) (hs : inv.Subscribed = some subscribed) :
    readInvestor (ledgerAfter st (RedeemAsset cid st investorID isin units)) investorID =
        some (redeemedInvestor inv a subscribed isin units) ∧
      readAsset (ledgerAfter st (RedeemAsset cid st investorID isin units)) isin =
        some (redeemedAsset a units) := by
  rw [RedeemAsset_ok_eq hauth hi ha hg hs]
  simp only [ledgerAfter, Store.apply]
  constructor
  · rw [readInvestor_put_ne _ _ (Ne.symm hne)]
    exact readInvestor_put_same _ _
      (redeemedInvestor_inRange a isin units (readInvestor_inRange hi) hs)
  · exact readAsset_put_same _ _ (redeemedAsset_inRange units (readAsset_inRange ha))

theorem Investor.units_of_some {inv : Investor} {m : Holdings} (hs : inv.Subscribed = some m)
    (isin : String) : inv.units isin = m.get isin := by
  simp [Investor.units, hs]

theorem unmarshalInvestor_marshalAsset (a : Asset) :
    unmarshalInvestor (marshalAsset a) =
      .ok { InvestorID := "", Balance := 0, Subscribed := none } := by
  simp [unmarshalInvestor, marshalAsset, decodeString, decodeInt, decodeMap, Doc.field]

theorem unmarshalAsset_marshalInvestor (i : Investor) :
    unmarshalAsset (marshalInvestor i) = .ok zeroAsset := by
  simp [unmarshalAsset, marshalInvestor, decodeString, decodeInt, Doc.field, zeroAsset]

theorem unitsHeldIn_marshalAsset (a : Asset) (isin : String) :
    unitsHeldIn (marshalAsset a) isin = 0 := by
  simp [unitsHeldIn, unmarshalInvestor_marshalAsset, Investor.units]

theorem unitsHeldIn_marshalInvestor {i : Investor} (h : i.InRange) (isin : String) :
    unitsHeldIn (marshalInvestor i) isin = i.units isin := by
  simp [unitsHeldIn, unmarshalInvestor_marshalInvestor h]

theorem unitsHeldIn_of_ok {d : Doc} {i : Investor} (h : unmarshalInvestor d = .ok i)
    (isin : String) : unitsHeldIn d isin = i.units isin := by
  simp [unitsHeldIn, h]

theorem held_put (st : Store) (k : String) (d : Doc) (isin : String) :
    held (st.put k d) isin =
      held st isin -
        (match st.get k with
         | some d0 => unitsHeldIn d0 isin
         | none => 0) + unitsHeldIn d isin := by
  induction st with
  | nil => simp [Store.put, Store.get, held]
  | cons e rest ih =>
    obtain ⟨k', d'⟩ := e
    by_cases hk : k' = k
    · simp only [Store.put, Store.get, hk, if_true, held]
      omega
    · simp only [Store.put, Store.get, hk, if_false, held, ih]
      omega

theorem Store.get_mem {st : Store} {k : String} {d : Doc} (h : st.get k = some d) :
    (k, d) ∈ st := by
  induction st with
  | nil => simp [Store.get] at h
  | cons e rest ih =>
    obtain ⟨k', d'⟩ := e
    by_cases hk : k' = k
    · simp only [Store.get, hk, if_true, Option.some.injEq] at h
      subst hk h
      exact List.mem_cons_self _ _
    · simp only [Store.get, hk, if_false] at h
      exact List.mem_cons_of_mem _ (ih h)

theorem Store.mem_put {st : Store} {k : String} {d : Doc} {e : String × Doc}
    (h : e ∈ st.put k d) : e = (k, d) ∨ e ∈ st := by
  induction st with
  | nil =>
    simp only [Store.put, List.mem_singleton] at h
    exact Or.inl h
  | cons e0 rest ih =>
    obtain ⟨k', d'⟩ := e0
    by_cases hk : k' = k
    · simp only [Store.put, hk, if_true, List.mem_cons] at h
      rcases h with h | h
      · exact Or.inl h
      · exact Or.inr (List.mem_cons_of_mem _ h)
    · simp only [Store.put, hk, if_false, List.mem_cons] at h
      rcases h with h | h
      · exact Or.inr (by rw [h]; exact List.mem_cons_self _ _)
      · rcases ih h with h | h
        · exact Or.inl h
        · exact Or.inr (List.mem_cons_of_mem _ h)

theorem Store.put_put_same (st : Store) (k : String) (d d' : Doc) :
    (st.put k d).put k d' = st.put k d' := by
  induction st with
  | nil => simp [Store.put]
  | cons e rest ih =>
    obtain ⟨k', d0⟩ := e
    by_cases hk : k' = k
    · simp [Store.put, hk]
    · simp [Store.put, hk, ih]

theorem held_nonneg {st : Store} {isin : String}
    (h : ∀ k d, (k, d) ∈ st → 0 ≤ unitsHeldIn d isin) : 0 ≤ held st isin := by
  induction st with
  | nil => simp [held]
  | cons e rest ih =>
    obtain ⟨k', d'⟩ := e
    have h1 := h k' d' (List.mem_cons_self _ _)
    have h2 := ih (fun k d hm => h k d (List.mem_cons_of_mem _ hm))
    simp only [held]
    omega

theorem unitsHeldIn_le_held {st : Store} {isin k : String} {d : Doc}
    (h : ∀ k d, (k, d) ∈ st → 0 ≤ unitsHeldIn d isin) (hg : st.get k = some d) :
    unitsHeldIn d isin ≤ held st isin := by
  induction st with
  | nil => simp [Store.get] at hg
  | cons e rest ih =>
    obtain ⟨k', d'⟩ := e
    have hrest : ∀ k d, (k, d) ∈ rest → 0 ≤ unitsHeldIn d isin :=
      fun k d hm => h k d (List.mem_cons_of_mem _ hm)
    by_cases hk : k' = k
    · simp only [Store.get, hk, if_true, Option.some.injEq] at hg
      subst hg
      have := held_nonneg hrest
      simp only [held]
      omega
    · simp only [Store.get, hk, if_false] at hg
      have h1 := h k' d' (List.mem_cons_self _ _)
      have h2 := ih hrest hg
      simp only [held]
      omega

theorem readInvestor_eq_some {st : Store} {k : String} {i : Investor} :
    readInvestor st k = some i ↔ ∃ d, st.get k = some d ∧ unmarshalInvestor d = .ok i := by
  unfold readInvestor
  cases hg : st.get k with
  | none => simp
  | some d =>
    cases hd : unmarshalInvestor d with
    | error e => simp [hd]
    | ok i0 => simp [hd]

theorem readAsset_eq_some {st : Store} {k : String} {a : Asset} :
    readAsset st k = some a ↔ ∃ d, st.get k = some d ∧ unmarshalAsset d = .ok a := by
  unfold readAsset
  cases hg : st.get k with
  | none => simp
  | some d =>
    cases hd : unmarshalAsset d with
    | error e => simp [hd]
    | ok a0 => simp [hd]

theorem LedgerInv.empty : LedgerInv [] where
  pure := by intro k d i h; simp at h
  nonneg := by intro k d h; simp at h
  asset := by intro isin a h; simp [readAsset, Store.get] at h
  absent := by intro isin _; rfl

/-- The invariant survives the two writes of a transition on different keys that sets
the investor's holding of `isin` to `v` and the available units to `av`, as long as both
are non-negative and their sum does not grow. -/
theorem LedgerInv.transfer {st : Store} {investorID isin : String} {inv : Investor}
    {m : Holdings} {a : Asset} {v b av : Int} (h : LedgerInv st) (hne : investorID ≠ isin)
    (hi : readInvestor st investorID = some inv) (hs : inv.Subscribed = some m)
    (ha : readAsset st isin = some a)
    (hv0 : 0 ≤ v) (hav0 : 0 ≤ av) (hcons : v + av ≤ m.get isin + a.AvailableUnits)
    (hvr : GoInt.InRange v) (hbr : GoInt.InRange b) (havr : GoInt.InRange av) :
    LedgerInv
      ((st.put investorID
          (marshalInvestor { inv with Subscribed := some (m.set isin v), Balance := b })).put
        isin (marshalAsset { a with AvailableUnits := av })) := by
  obtain ⟨d1, hg1, hd1⟩ := readInvestor_eq_some.mp hi
  obtain ⟨d2, hg2, hd2⟩ := readAsset_eq_some.mp ha
  have hIr := unmarshalInvestor_inRange hd1
  have hAr := unmarshalAsset_inRange hd2
  have hI1 : Investor.InRange { inv with Subscribed := some (m.set isin v), Balance := b } := by
    refine ⟨hbr, ?_⟩
    intro m1 hm1
    simp only [Option.some.injEq] at hm1
    subst hm1
    exact Holdings.InRange_set (hIr.2 m hs) _ hvr
  have hA1 : Asset.InRange { a with AvailableUnits := av } := ⟨hAr.1, hAr.2.1, havr⟩
  have hmem1 := Store.get_mem hg1
  have hmem2 := Store.get_mem hg2
  -- the holdings recorded in the documents involved
  have hu1 : ∀ K, unitsHeldIn d1 K = m.get K := fun K => by
    rw [unitsHeldIn_of_ok hd1, Investor.units_of_some hs]
  have huI : ∀ K, unitsHeldIn
      (marshalInvestor { inv with Subscribed := some (m.set isin v), Balance := b }) K =
      (m.set isin v).get K := fun K => by
    rw [unitsHeldIn_marshalInvestor hI1]
    rfl
  have hm0 : ∀ K, 0 ≤ m.get K := fun K => by
    rw [← hu1]
    exact h.nonneg _ _ hmem1 K
  have hd20 : ∀ K, 0 ≤ unitsHeldIn d2 K := fun K => h.nonneg _ _ hmem2 K
  have hheld : ∀ K, held
      ((st.put investorID
          (marshalInvestor { inv with Subscribed := some (m.set isin v), Balance := b })).put
        isin (marshalAsset { a with AvailableUnits := av })) K =
      held st K - m.get K + (m.set isin v).get K - unitsHeldIn d2 K := fun K => by
    rw [held_put, held_put, Store.get_put_ne _ _ hne, hg1, hg2, unitsHeldIn_marshalAsset, huI]
    simp only [hu1]
    omega
  have hpure1 : unmarshalAsset d1 = .ok zeroAsset :=
    h.pure _ _ _ hmem1 hd1 (by rw [hs]; simp)
  have hzero : readAsset st investorID = some zeroAsset :=
    readAsset_eq_some.mpr ⟨d1, hg1, hpure1⟩
  constructor
  · intro k d i hmem hdec hsub
    rcases Store.mem_put hmem with he | hmem
    · cases he
      rw [unmarshalInvestor_marshalAsset] at hdec
      cases hdec
      exact absurd rfl hsub
    · rcases Store.mem_put hmem with he | hmem
      · cases he
        exact unmarshalAsset_marshalInvestor _
      · exact h.pure k d i hmem hdec hsub
  · intro k d hmem K
    rcases Store.mem_put hmem with he | hmem
    · cases he
      rw [unitsHeldIn_marshalAsset]
    · rcases Store.mem_put hmem with he | hmem
      · cases he
        rw [huI]
        by_cases hK : isin = K
        · subst hK
          rw [Holdings.get_set_same]
          exact hv0
        · rw [Holdings.get_set_ne _ _ hK]
          exact hm0 K
      · exact h.nonneg k d hmem K
  · intro K a0 hread
    rw [hheld]
    by_cases hK : K = isin
    · subst hK
      rw [readAsset_put_same _ _ hA1] at hread
      cases hread
      have := h.asset K a ha
      have := hd20 K
      rw [Holdings.get_set_same]
      simp only
      omega
    · rw [readAsset_put_ne _ _ (Ne.symm hK)] at hread
      rw [Holdings.get_set_ne _ _ (Ne.symm hK)]
      have := hd20 K
      by_cases hK2 : K = investorID
      · subst hK2
        have hz : readAsset (st.put K
            (marshalInvestor { inv with Subscribed := some (m.set isin v), Balance := b })) K =
            some zeroAsset := by
          rw [readAsset_eq_some]
          exact ⟨_, Store.get_put_same _ _ _, unmarshalAsset_marshalInvestor _⟩
        rw [hz] at hread
        cases hread
        have := h.asset K zeroAsset hzero
        simp only [zeroAsset] at this ⊢
        omega
      · rw [readAsset_put_ne _ _ (Ne.symm hK2)] at hread
        have := h.asset K a0 hread
        omega
  · intro K hnone
    rw [hheld]
    have hK : isin ≠ K := by
      intro hK
      subst hK
      rw [Store.get_put_same] at hnone
      cases hnone
    rw [Store.get_put_ne _ _ hK] at hnone
    have hK2 : investorID ≠ K := by
      intro hK2
      subst hK2
      rw [Store.get_put_same] at hnone
      cases hnone
    rw [Store.get_put_ne _ _ hK2] at hnone
    have h0 := h.absent K hnone
    have h1 := unitsHeldIn_le_held (fun k d hm => h.nonneg k d hm K) hg2
    have h2 := hd20 K
    rw [Holdings.get_set_ne _ _ hK]
    omega

/-- The invariant survives the replacement of an investor record by the zero asset,
which is what a transition with `investorID = isin` and 0 units leaves behind. -/
theorem LedgerInv.collapse {st : Store} {k : String} {inv : Investor} {m : Holdings}
    (h : LedgerInv st) (hi : readInvestor st k = some inv) (hs : inv.Subscribed = some m) :
    LedgerInv (st.put k (marshalAsset zeroAsset)) := by
  obtain ⟨d1, hg1, hd1⟩ := readInvestor_eq_some.mp hi
  have hmem1 := Store.get_mem hg1
  have hu1 : ∀ K, unitsHeldIn d1 K = m.get K := fun K => by
    rw [unitsHeldIn_of_ok hd1, Investor.units_of_some hs]
  have hm0 : ∀ K, 0 ≤ m.get K := fun K => by
    rw [← hu1]
    exact h.nonneg _ _ hmem1 K
  have hheld : ∀ K, held (st.put k (marshalAsset zeroAsset)) K = held st K - m.get K :=
    fun K => by
      rw [held_put, hg1, unitsHeldIn_marshalAsset]
      simp only [hu1]
      omega
  have hpure1 : unmarshalAsset d1 = .ok zeroAsset :=
    h.pure _ _ _ hmem1 hd1 (by rw [hs]; simp)
  have hzero : readAsset st k = some zeroAsset := readAsset_eq_some.mpr ⟨d1, hg1, hpure1⟩
  have hzr : zeroAsset.InRange := by
    simp [Asset.InRange, zeroAsset, GoInt.InRange]
  constructor
  · intro k0 d i hmem hdec hsub
    rcases Store.mem_put hmem with he | hmem
    · cases he
      rw [unmarshalInvestor_marshalAsset] at hdec
      cases hdec
      exact absurd rfl hsub
    · exact h.pure k0 d i hmem hdec hsub
  · intro k0 d hmem K
    rcases Store.mem_put hmem with he | hmem
    · cases he
      rw [unitsHeldIn_marshalAsset]
    · exact h.nonneg k0 d hmem K
  · intro K a0 hread
    rw [hheld]
    have := hm0 K
    by_cases hK : K = k
    · subst hK
      rw [readAsset_put_same _ _ hzr] at hread
      cases hread
      have := h.asset K zeroAsset hzero
      simp only [zeroAsset] at this ⊢
      omega
    · rw [readAsset_put_ne _ _ (Ne.symm hK)] at hread
      have := h.asset K a0 hread
      omega
  · intro K hnone
    rw [hheld]
    have hK : k ≠ K := by
      intro hK
      subst hK
      rw [Store.get_put_same] at hnone
      cases hnone
    rw [Store.get_put_ne _ _ hK] at hnone
    have h0 := h.absent K hnone
    have h1 := unitsHeldIn_le_held (fun k d hm => h.nonneg k d hm K) hg1
    rw [hu1] at h1
    have := hm0 K
    omega

/-- Replacing a record by one that holds no units does not raise the units held. -/
theorem held_put_le {st : Store} {isin : String}
    (hn : ∀ k d, (k, d) ∈ st → 0 ≤ unitsHeldIn d isin) (k : String) {d : Doc}
    (hd : unitsHeldIn d isin = 0) : held (st.put k d) isin ≤ held st isin := by
  rw [held_put, hd]
  cases hg : st.get k with
  | none =>
    simp only
    omega
  | some d0 =>
    have := hn k d0 (Store.get_mem hg)
    simp only
    omega

/-- The invariant survives the replacement of a record by one that holds no units and
reads as an asset within the invariant, under a key of which no units are held. -/
theorem LedgerInv.overwrite {st : Store} {k : String} {d : Doc} (h : LedgerInv st)
    (hheld : held st k = 0) (hu : ∀ K, unitsHeldIn d K = 0)
    (hpure : ∀ i, unmarshalInvestor d = .ok i → i.Subscribed ≠ none →
      unmarshalAsset d = .ok zeroAsset)
    (hasset : ∀ a, unmarshalAsset d = .ok a → 0 ≤ a.AvailableUnits ∧
      a.AvailableUnits ≤ a.TotalUnits) :
    LedgerInv (st.put k d) := by
  have hnn : ∀ k0 d0, (k0, d0) ∈ st.put k d → ∀ K, 0 ≤ unitsHeldIn d0 K := by
    intro k0 d0 hmem K
    rcases Store.mem_put hmem with he | hmem
    · cases he
      rw [hu]
    · exact h.nonneg k0 d0 hmem K
  have hle : ∀ K, held (st.put k d) K ≤ held st K :=
    fun K => held_put_le (fun k0 d0 hm => h.nonneg k0 d0 hm K) k (hu K)
  have h0 : ∀ K, 0 ≤ held (st.put k d) K :=
    fun K => held_nonneg (fun k0 d0 hm => hnn k0 d0 hm K)
  constructor
  · intro k0 d0 i hmem hdec hsub
    rcases Store.mem_put hmem with he | hmem
    · cases he
      exact hpure i hdec hsub
    · exact h.pure k0 d0 i hmem hdec hsub
  · exact hnn
  · intro K a0 hread
    have := hle K
    have := h0 K
    by_cases hK : K = k
    · subst hK
      obtain ⟨d1, hg1, hd1⟩ := readAsset_eq_some.mp hread
      rw [Store.get_put_same] at hg1
      cases hg1
      have := hasset a0 hd1
      omega
    · rw [readAsset_put_ne _ _ (Ne.symm hK)] at hread
      have := h.asset K a0 hread
      omega
  · intro K hnone
    have hK : k ≠ K := by
      intro hK
      subst hK
      rw [Store.get_put_same] at hnone
      cases hnone
    rw [Store.get_put_ne _ _ hK] at hnone
    have := h.absent K hnone
    have := hle K
    have := h0 K
    omega

/-- The invariant survives `CreateUser` on a key of which no units are held. -/
theorem LedgerInv.createUser {st : Store} {investorID : String} {balance : Int}
    (h : LedgerInv st) (hheld : held st investorID = 0) (hb : GoInt.InRange balance) :
    LedgerInv (st.put investorID
      (marshalInvestor { InvestorID := investorID, Balance := balance, Subscribed := some [] }))
    := by
  have hIr : Investor.InRange
      { InvestorID := investorID, Balance := balance, Subscribed := some [] } := by
    refine ⟨hb, ?_⟩
    intro m hm e he
    simp only [Option.some.injEq] at hm
    subst hm
    simp at he
  refine h.overwrite hheld ?_ ?_ ?_
  · intro K
    rw [unitsHeldIn_marshalInvestor hIr]
    rfl
  · intro i _ _
    exact unmarshalAsset_marshalInvestor _
  · intro a hdec
    rw [unmarshalAsset_marshalInvestor] at hdec
    cases hdec
    simp [zeroAsset]

/-- The invariant survives `RegisterAsset` with a non-negative number of units on a key
of which no units are held. -/
theorem LedgerInv.registerAsset {st : Store} {isin : String} (companyName assetType : String)
    {totalUnits pricePerUnit : Int} (h : LedgerInv st) (hheld : held st isin = 0)
    (ht0 : 0 ≤ totalUnits) (htr : GoInt.InRange totalUnits)
    (hpr : GoInt.InRange pricePerUnit) :
    LedgerInv (st.put isin
      (marshalAsset { ISIN := isin, CompanyName := companyName, AssetType := assetType,
                      TotalUnits := totalUnits, PricePerUnit := pricePerUnit,
                      AvailableUnits := totalUnits })) := by
  have hAr : Asset.InRange
      { ISIN := isin, CompanyName := companyName, AssetType := assetType,
        TotalUnits := totalUnits, PricePerUnit := pricePerUnit,
        AvailableUnits := totalUnits } := ⟨htr, hpr, htr⟩
  refine h.overwrite hheld ?_ ?_ ?_
  · intro K
    exact unitsHeldIn_marshalAsset _ K
  · intro i hdec hsub
    rw [unmarshalInvestor_marshalAsset] at hdec
    cases hdec
    exact absurd rfl hsub
  · intro a hdec
    rw [unmarshalAsset_marshalAsset hAr] at hdec
    cases hdec
    exact ⟨ht0, le_refl _⟩

/-- Under the invariant no units are held under a key that stores no record or stores an
investor: such keys are open to `CreateUser` and `RegisterAsset` in a regular run. -/
theorem LedgerInv.held_eq_zero {st : Store} {k : String} (h : LedgerInv st)
    (hk : st.get k = none ∨
      ∃ inv m, readInvestor st k = some inv ∧ inv.Subscribed = some m) :
    held st k = 0 := by
  rcases hk with hk | ⟨inv, m, hi, hs⟩
  · exact h.absent k hk
  · obtain ⟨d1, hg1, hd1⟩ := readInvestor_eq_some.mp hi
    have hz : readAsset st k = some zeroAsset :=
      readAsset_eq_some.mpr
        ⟨d1, hg1, h.pure _ _ _ (Store.get_mem hg1) hd1 (by rw [hs]; simp)⟩
    have h1 := h.asset k zeroAsset hz
    have h2 := held_nonneg (fun k0 d0 hm => h.nonneg k0 d0 hm k)
    simp only [zeroAsset] at h1
    omega

theorem LedgerInv.units_bounds {st : Store} {k : String} {inv : Investor}
    (h : LedgerInv st) (hi : readInvestor st k = some inv) (isin : String) :
    0 ≤ inv.units isin ∧ inv.units isin ≤ held st isin := by
  obtain ⟨d1, hg1, hd1⟩ := readInvestor_eq_some.mp hi
  have h1 := h.nonneg _ _ (Store.get_mem hg1) isin
  have h2 := unitsHeldIn_le_held (fun k d hm => h.nonneg k d hm isin) hg1
  rw [unitsHeldIn_of_ok hd1] at h1 h2
  exact ⟨h1, h2⟩

theorem LedgerInv.readAsset_investor {st : Store} {k : String} {inv : Investor}
    {m : Holdings} (h : LedgerInv st) (hi : readInvestor st k = some inv)
    (hs : inv.Subscribed = some m) : readAsset st k = some zeroAsset := by
  obtain ⟨d1, hg1, hd1⟩ := readInvestor_eq_some.mp hi
  exact readAsset_eq_some.mpr
    ⟨d1, hg1, h.pure _ _ _ (Store.get_mem hg1) hd1 (by rw [hs]; simp)⟩

theorem ledgerAfter_of_err {st : Store} {tx : Tx} (h : tx.err ≠ none) :
    ledgerAfter st tx = st := by
  unfold ledgerAfter
  cases he : tx.err with
  | none => exact absurd he h
  | some f => rfl

theorem ledgerAfter_GetPortfolio (rangeOrder : Holdings → Holdings) (st : Store)
    (investorID : String) : ledgerAfter st (GetPortfolio rangeOrder st investorID).2 = st := by
  unfold GetPortfolio
  cases hg : st.get investorID with
  | none => rfl
  | some d =>
    cases hd : unmarshalInvestor d with
    | error e => simp only [hd]; rfl
    | ok i => simp only [hd]; rfl

/-- No invocation stores a record under the empty key: `PutState` rejects it in
`CreateUser` and `RegisterAsset`, and `SubscribeAsset` and `RedeemAsset` write under the
two keys they have read a record from. -/
theorem exec_get_empty_key {st : Store} (c : Call) (h : st.get "" = none) :
    (exec st c).get "" = none := by
  cases c with
  | createUser investorID balance =>
    rw [exec_createUser]
    split
    · exact h
    · rename_i hkey
      rw [Store.get_put_ne _ _ hkey]
      exact h
  | registerAsset isin companyName assetType totalUnits pricePerUnit =>
    rw [exec_registerAsset]
    split
    · exact h
    · rename_i hkey
      rw [Store.get_put_ne _ _ hkey]
      exact h
  | subscribeAsset cid investorID isin units =>
    show (ledgerAfter st (SubscribeAsset cid st investorID isin units)).get "" = none
    by_cases hok : (SubscribeAsset cid st investorID isin units).err = none
    · obtain ⟨hauth, inv, a, m, hi, ha, hb, hu, hs⟩ := SubscribeAsset_ok_inv hok
      rw [SubscribeAsset_ok_eq hauth hi ha hb hu hs]
      simp only [ledgerAfter, Store.apply]
      obtain ⟨d1, hg1, _⟩ := readInvestor_eq_some.mp hi
      obtain ⟨d2, hg2, _⟩ := readAsset_eq_some.mp ha
      have h1 : investorID ≠ "" := by
        intro he
        rw [he, h] at hg1
        cases hg1
      have h2 : isin ≠ "" := by
        intro he
        rw [he, h] at hg2
        cases hg2
      rw [Store.get_put_ne _ _ h2, Store.get_put_ne _ _ h1]
      exact h
    · rw [ledgerAfter_of_err hok]
      exact h
  | redeemAsset cid investorID isin units =>
    show (ledgerAfter st (RedeemAsset cid st investorID isin units)).get "" = none
    by_cases hok : (RedeemAsset cid st investorID isin units).err = none
    · obtain ⟨hauth, inv, a, m, hi, ha, hg, hs⟩ := RedeemAsset_ok_inv hok
      rw [RedeemAsset_ok_eq hauth hi ha hg hs]
      simp only [ledgerAfter, Store.apply]
      obtain ⟨d1, hg1, _⟩ := readInvestor_eq_some.mp hi
      obtain ⟨d2, hg2, _⟩ := readAsset_eq_some.mp ha
      have h1 : investorID ≠ "" := by
        intro he
        rw [he, h] at hg1
        cases hg1
      have h2 : isin ≠ "" := by
        intro he
        rw [he, h] at hg2
        cases hg2
      rw [Store.get_put_ne _ _ h2, Store.get_put_ne _ _ h1]
      exact h
    · rw [ledgerAfter_of_err hok]
      exact h
  | getPortfolio rangeOrder investorID =>
    show (ledgerAfter st (GetPortfolio rangeOrder st investorID).2).get "" = none
    rw [ledgerAfter_GetPortfolio]
    exact h

/-- No store reached from the empty store holds a record under the empty key, so the
`PutState` calls of `SubscribeAsset` and `RedeemAsset` are never rejected for their
key. -/
theorem run_get_empty_key (calls : List Call) :
    ∀ {st : Store}, st.get "" = none → (run st calls).get "" = none := by
  induction calls with
  | nil => intro st h; exact h
  | cons c rest ih =>
    intro st h
    exact ih (exec_get_empty_key c h)

theorem GoInt.wrap_zero : GoInt.wrap 0 = 0 :=
  GoInt.wrap_of_inRange (by unfold GoInt.InRange; omega)

/-- A successful `SubscribeAsset` with a non-negative number of units keeps the
invariant. -/
theorem LedgerInv.subscribe {st : Store} {cid : ClientIdentity} {investorID isin : String}
    {units : Int} (h : LedgerInv st) (hu0 : 0 ≤ units)
    (hok : (SubscribeAsset cid st investorID isin units).err = none) :
    LedgerInv (ledgerAfter st (SubscribeAsset cid st investorID isin units)) := by
  obtain ⟨hauth, inv, a, m, hi, ha, hb, hu, hs⟩ := SubscribeAsset_ok_inv hok
  rw [SubscribeAsset_ok_eq hauth hi ha hb hu hs]
  simp only [ledgerAfter, Store.apply]
  have hbd := h.units_bounds hi isin
  rw [Investor.units_of_some hs] at hbd
  obtain ⟨htr, _, havr⟩ := readAsset_inRange ha
  unfold GoInt.InRange at htr havr
  have has := h.asset isin a ha
  by_cases hne : investorID = isin
  · subst hne
    rw [h.readAsset_investor hi hs] at ha
    cases ha
    have hz : units = 0 := by
      simp only [zeroAsset] at hu
      omega
    subst hz
    rw [Store.put_put_same]
    have : subscribedAsset zeroAsset 0 = zeroAsset := by
      simp [subscribedAsset, zeroAsset, GoInt.sub, GoInt.wrap_zero]
    rw [this]
    exact h.collapse hi hs
  · have hv : GoInt.add (m.get isin) units = m.get isin + units := by
      apply GoInt.wrap_of_inRange
      unfold GoInt.InRange
      omega
    have hav : GoInt.sub a.AvailableUnits units = a.AvailableUnits - units := by
      apply GoInt.wrap_of_inRange
      unfold GoInt.InRange
      omega
    exact h.transfer hne hi hs ha (by rw [hv]; omega) (by rw [hav]; omega)
      (by rw [hv, hav]; omega) (GoInt.wrap_inRange _) (GoInt.wrap_inRange _)
      (GoInt.wrap_inRange _)

/-- A successful `RedeemAsset` with a non-negative number of units keeps the invariant. -/
theorem LedgerInv.redeem {st : Store} {cid : ClientIdentity} {investorID isin : String}
    {units : Int} (h : LedgerInv st) (hu0 : 0 ≤ units)
    (hok : (RedeemAsset cid st investorID isin units).err = none) :
    LedgerInv (ledgerAfter st (RedeemAsset cid st investorID isin units)) := by
  obtain ⟨hauth, inv, a, m, hi, ha, hg, hs⟩ := RedeemAsset_ok_inv hok
  rw [RedeemAsset_ok_eq hauth hi ha hg hs]
  simp only [ledgerAfter, Store.apply]
  have hbd := h.units_bounds hi isin
  rw [Investor.units_of_some hs] at hbd hg
  obtain ⟨htr, _, havr⟩ := readAsset_inRange ha
  unfold GoInt.InRange at htr havr
  have has := h.asset isin a ha
  by_cases hne : investorID = isin
  · subst hne
    rw [h.readAsset_investor hi hs] at ha
    cases ha
    have hz : units = 0 := by
      simp only [zeroAsset] at has
      omega
    subst hz
    rw [Store.put_put_same]
    have : redeemedAsset zeroAsset 0 = zeroAsset := by
      simp [redeemedAsset, zeroAsset, GoInt.add, GoInt.wrap_zero]
    rw [this]
    exact h.collapse hi hs
  · have hv : GoInt.sub (m.get isin) units = m.get isin - units := by
      apply GoInt.wrap_of_inRange
      unfold GoInt.InRange
      omega
    have hav : GoInt.add a.AvailableUnits units = a.AvailableUnits + units := by
      apply GoInt.wrap_of_inRange
      unfold GoInt.InRange
      omega
    exact h.transfer hne hi hs ha (by rw [hv]; omega) (by rw [hav]; omega)
      (by rw [hv, hav]; omega) (GoInt.wrap_inRange _) (GoInt.wrap_inRange _)
      (GoInt.wrap_inRange _)

/-- A regular invocation keeps the invariant. -/
theorem LedgerInv.exec {st : Store} {c : Call} (h : LedgerInv st) (hc : c.Regular st) :
    LedgerInv (exec st c) := by
  cases c with
  | createUser investorID balance =>
    rw [exec_createUser]
    split
    · exact h
    · exact h.createUser hc.2 hc.1
  | registerAsset isin companyName assetType totalUnits pricePerUnit =>
    rw [exec_registerAsset]
    split
    · exact h
    · exact h.registerAsset companyName assetType hc.2.1 hc.2.2 hc.1.1 hc.1.2
  | subscribeAsset cid investorID isin units =>
    by_cases hok : (SubscribeAsset cid st investorID isin units).err = none
    · exact h.subscribe hc.2 hok
    · show LedgerInv (ledgerAfter st (SubscribeAsset cid st investorID isin units))
      rw [ledgerAfter_of_err hok]
      exact h
  | redeemAsset cid investorID isin units =>
    by_cases hok : (RedeemAsset cid st investorID isin units).err = none
    · exact h.redeem hc.2 hok
    · show LedgerInv (ledgerAfter st (RedeemAsset cid st investorID isin units))
      rw [ledgerAfter_of_err hok]
      exact h
  | getPortfolio rangeOrder investorID =>
    show LedgerInv (ledgerAfter st (GetPortfolio rangeOrder st investorID).2)
    rw [ledgerAfter_GetPortfolio]
    exact h

/-- A regular sequence of invocations keeps the invariant. -/
theorem LedgerInv.run {calls : List Call} :
    ∀ {st : Store}, LedgerInv st → RegularRun st calls → LedgerInv (run st calls) := by
  induction calls with
  | nil => intro st h _; exact h
  | cons c rest ih =>
    intro st h hr
    exact ih (h.exec hr.1) hr.2

theorem GetPortfolio_of_read {rangeOrder : Holdings → Holdings} {st : Store}
    {investorID : String} {inv : Investor} (hi : readInvestor st investorID = some inv) :
    GetPortfolio rangeOrder st investorID =
      ("Investor ID: " ++ inv.InvestorID ++ "\nBalance: " ++ toString inv.Balance ++
          "\nSubscribed Assets:\n" ++
          portfolioLines (match inv.Subscribed with
            | none => []
            | some m => rangeOrder m),
        { err := none, reads := [investorID], writes := [], events := [] }) := by
  obtain ⟨d, hg, hd⟩ := readInvestor_eq_some.mp hi
  unfold GetPortfolio
  simp only [hg, hd]

theorem SubscribeAsset_events (cid : ClientIdentity) (st : Store) (investorID isin : String)
    (units : Int) :
    (SubscribeAsset cid st investorID isin units).events =
      if (SubscribeAsset cid st investorID isin units).err = none then
        [("SubscriptionEvent",
          "Investor " ++ investorID ++ " subscribed to " ++ toString units ++
            " units of asset " ++ isin)]
      else [] := by
  by_cases hok : (SubscribeAsset cid st investorID isin units).err = none
  · obtain ⟨hauth, inv, a, m, hi, ha, hb, hu, hs⟩ := SubscribeAsset_ok_inv hok
    rw [if_pos hok, SubscribeAsset_ok_eq hauth hi ha hb hu hs]
  · rw [if_neg hok]
    unfold SubscribeAsset at hok ⊢
    by_cases hauth : (cid.GetAttributeValue "role").2 ≠ none ∨
        (cid.GetAttributeValue "role").1 ≠ "Investor"
    · simp only [hauth, if_true]
    · simp only [hauth, if_false] at hok ⊢
      cases hg1 : st.get investorID with
      | none => simp only [hg1]
      | some d1 =>
        cases hd1 : unmarshalInvestor d1 with
        | error e => simp only [hg1, hd1]
        | ok inv =>
          cases hg2 : st.get isin with
          | none => simp only [hg1, hd1, hg2]
          | some d2 =>
            cases hd2 : unmarshalAsset d2 with
            | error e => simp only [hg1, hd1, hg2, hd2]
            | ok a =>
              simp only [hg1, hd1, hg2, hd2] at hok ⊢
              by_cases hb : inv.Balance < GoInt.mul units a.PricePerUnit
              · simp only [hb, if_true]
              · by_cases hu : units > a.AvailableUnits
                · simp only [hb, hu, if_true, if_false]
                · cases hs : inv.Subscribed with
                  | none => simp only [hb, hu, hs, if_false]
                  | some m => simp [hb, hu, hs] at hok

theorem RedeemAsset_events (cid : ClientIdentity) (st : Store) (investorID isin : String)
    (units : Int) :
    (RedeemAsset cid st investorID isin units).events =
      if (RedeemAsset cid st investorID isin units).err = none then
        [("RedemptionEvent",
          "Investor " ++ investorID ++ " redeemed " ++ toString units ++
            " units of asset " ++ isin)]
      else [] := by
  by_cases hok : (RedeemAsset cid st investorID isin units).err = none
  · obtain ⟨hauth, inv, a, m, hi, ha, hg, hs⟩ := RedeemAsset_ok_inv hok
    rw [if_pos hok, RedeemAsset_ok_eq hauth hi ha hg hs]
  · rw [if_neg hok]
    unfold RedeemAsset at hok ⊢
    by_cases hauth : (cid.GetAttributeValue "role").2 ≠ none ∨
        (cid.GetAttributeValue "role").1 ≠ "Investor"
    · simp only [hauth, if_true]
    · simp only [hauth, if_false] at hok ⊢
      cases hg1 : st.get investorID with
      | none => simp only [hg1]
      | some d1 =>
        cases hd1 : unmarshalInvestor d1 with
        | error e => simp only [hg1, hd1]
        | ok inv =>
          cases hg2 : st.get isin with
          | none => simp only [hg1, hd1, hg2]
          | some d2 =>
            cases hd2 : unmarshalAsset d2 with
            | error e => simp only [hg1, hd1, hg2, hd2]
            | ok a =>
              simp only [hg1, hd1, hg2, hd2] at hok ⊢
              by_cases hb : inv.units isin < units
              · simp only [hb, if_true]
              · cases hs : inv.Subscribed with
                | none => simp only [hb, hs, if_false]
                | some m => simp [hb, hs] at hok

theorem GetPortfolio_effects (rangeOrder : Holdings → Holdings) (st : Store)
    (investorID : String) :
    (GetPortfolio rangeOrder st investorID).2.writes = [] ∧
      (GetPortfolio rangeOrder st investorID).2.events = [] := by
  unfold GetPortfolio
  cases hg : st.get investorID with
  | none => exact ⟨rfl, rfl⟩
  | some d =>
    cases hd : unmarshalInvestor d with
    | error e => simp [hd]
    | ok i => simp [hd]

theorem GoInt.wrap_modEq (x : Int) : GoInt.wrap x ≡ x [ZMOD 18446744073709551616] := by
  unfold Int.ModEq GoInt.wrap
  omega

theorem GoInt.wrap_congr {x y : Int} (h : x ≡ y [ZMOD 18446744073709551616]) :
    GoInt.wrap x = GoInt.wrap y := by
  unfold Int.ModEq at h
  unfold GoInt.wrap
  omega

/-- Go `int` arithmetic: paying `c = u * p` and gaining `u` units at price `p` leaves
balance plus value of the holding unchanged. -/
theorem GoInt.pay_conserves (bal s u p : Int) :
    GoInt.add (GoInt.sub bal (GoInt.mul u p)) (GoInt.mul p (GoInt.add s u)) =
      GoInt.add bal (GoInt.mul p s) := by
  unfold GoInt.add GoInt.sub GoInt.mul
  apply GoInt.wrap_congr
  have h1 : GoInt.wrap (bal - GoInt.wrap (u * p)) ≡ bal - u * p [ZMOD 18446744073709551616] :=
    (GoInt.wrap_modEq _).trans ((Int.ModEq.refl bal).sub (GoInt.wrap_modEq _))
  have h2 : GoInt.wrap (p * GoInt.wrap (s + u)) ≡ p * (s + u) [ZMOD 18446744073709551616] :=
    (GoInt.wrap_modEq _).trans ((GoInt.wrap_modEq _).mul_left p)
  have h3 : bal + GoInt.wrap (p * s) ≡ bal + p * s [ZMOD 18446744073709551616] :=
    (Int.ModEq.refl bal).add (GoInt.wrap_modEq _)
  have h4 : bal - u * p + p * (s + u) = bal + p * s := by ring
  exact ((h1.add h2).trans (by rw [h4])).trans h3.symm

/-- Go `int` arithmetic: receiving `u * p` and giving up `u` units at price `p` leaves
balance plus value of the holding unchanged. -/
theorem GoInt.receive_conserves (bal s u p : Int) :
    GoInt.add (GoInt.add bal (GoInt.mul u p)) (GoInt.mul p (GoInt.sub s u)) =
      GoInt.add bal (GoInt.mul p s) := by
  unfold GoInt.add GoInt.sub GoInt.mul
  apply GoInt.wrap_congr
  have h1 : GoInt.wrap (bal + GoInt.wrap (u * p)) ≡ bal + u * p [ZMOD 18446744073709551616] :=
    (GoInt.wrap_modEq _).trans ((Int.ModEq.refl bal).add (GoInt.wrap_modEq _))
  have h2 : GoInt.wrap (p * GoInt.wrap (s - u)) ≡ p * (s - u) [ZMOD 18446744073709551616] :=
    (GoInt.wrap_modEq _).trans ((GoInt.wrap_modEq _).mul_left p)
  have h3 : bal + GoInt.wrap (p * s) ≡ bal + p * s [ZMOD 18446744073709551616] :=
    (Int.ModEq.refl bal).add (GoInt.wrap_modEq _)
  have h4 : bal + u * p + p * (s - u) = bal + p * s := by ring
  exact ((h1.add h2).trans (by rw [h4])).trans h3.symm

theorem Store.get_put_put_ne (st : Store) {k1 k2 key : String} (d1 d2 : Doc)
    (h1 : key ≠ k1) (h2 : key ≠ k2) : ((st.put k1 d1).put k2 d2).get key = st.get key := by
  rw [Store.get_put_ne _ _ (Ne.symm h2), Store.get_put_ne _ _ (Ne.symm h1)]

theorem Doc.Written.decodes {d : Doc} (h : Doc.Written d) :
    ∃ inv, unmarshalInvestor d = .ok inv := by
  rcases h with ⟨i, hi, rfl⟩ | ⟨a, _, rfl⟩
  · exact ⟨i, unmarshalInvestor_marshalInvestor hi⟩
  · exact ⟨_, unmarshalInvestor_marshalAsset a⟩

theorem Store.Written.put_written {st : Store} (h : Store.Written st) (k : String) {d : Doc}
    (hd : Doc.Written d) : Store.Written (st.put k d) := by
  intro key d0 hg
  by_cases hk : k = key
  · subst hk
    rw [Store.get_put_same] at hg
    cases hg
    exact hd
  · rw [Store.get_put_ne _ _ hk] at hg
    exact h key d0 hg

theorem Store.Written.exec_written {st : Store} {c : Call} (h : Store.Written st)
    (hc : c.InRange) : Store.Written (exec st c) := by
  cases c with
  | createUser investorID balance =>
    rw [exec_createUser]
    split
    · exact h
    · refine h.put_written investorID (Or.inl
        ⟨{ InvestorID := investorID, Balance := balance, Subscribed := some [] },
          ⟨hc, ?_⟩, rfl⟩)
      intro m hm e he
      simp only [Option.some.injEq] at hm
      subst hm
      simp at he
  | registerAsset isin companyName assetType totalUnits pricePerUnit =>
    rw [exec_registerAsset]
    split
    · exact h
    · exact h.put_written isin (Or.inr
        ⟨{ ISIN := isin, CompanyName := companyName, AssetType := assetType,
           TotalUnits := totalUnits, PricePerUnit := pricePerUnit,
           AvailableUnits := totalUnits }, ⟨hc.1, hc.2, hc.1⟩, rfl⟩)
  | subscribeAsset cid investorID isin units =>
    show Store.Written (ledgerAfter st (SubscribeAsset cid st investorID isin units))
    by_cases hok : (SubscribeAsset cid st investorID isin units).err = none
    · obtain ⟨hauth, inv, a, m, hi, ha, hb, hu, hs⟩ := SubscribeAsset_ok_inv hok
      rw [SubscribeAsset_ok_eq hauth hi ha hb hu hs]
      simp only [ledgerAfter, Store.apply]
      exact (h.put_written investorID (Or.inl ⟨_,
        subscribedInvestor_inRange a isin units (readInvestor_inRange hi) hs, rfl⟩)).put_written
        isin (Or.inr ⟨_, subscribedAsset_inRange units (readAsset_inRange ha), rfl⟩)
    · rw [ledgerAfter_of_err hok]
      exact h
  | redeemAsset cid investorID isin units =>
    show Store.Written (ledgerAfter st (RedeemAsset cid st investorID isin units))
    by_cases hok : (RedeemAsset cid st investorID isin units).err = none
    · obtain ⟨hauth, inv, a, m, hi, ha, hg, hs⟩ := RedeemAsset_ok_inv hok
      rw [RedeemAsset_ok_eq hauth hi ha hg hs]
      simp only [ledgerAfter, Store.apply]
      exact (h.put_written investorID (Or.inl ⟨_,
        redeemedInvestor_inRange a isin units (readInvestor_inRange hi) hs, rfl⟩)).put_written
        isin (Or.inr ⟨_, redeemedAsset_inRange units (readAsset_inRange ha), rfl⟩)
    · rw [ledgerAfter_of_err hok]
      exact h
  | getPortfolio rangeOrder investorID =>
    show Store.Written (ledgerAfter st (GetPortfolio rangeOrder st investorID).2)
    rw [ledgerAfter_GetPortfolio]
    exact h

theorem Store.Written.run_written {calls : List Call} :
    ∀ {st : Store}, Store.Written st → (∀ c ∈ calls, c.InRange) →
      Store.Written (run st calls) := by
  induction calls with
  | nil => intro st h _; exact h
  | cons c rest ih =>
    intro st h hr
    exact ih (h.exec_written (hr c (List.mem_cons_self _ _)))
      (fun c0 hc0 => hr c0 (List.mem_cons_of_mem _ hc0))

theorem Store.Written.nil : Store.Written [] := by
  intro k d h
  simp [Store.get] at h

theorem Holdings.perm_eq_of_length_le_one {e1 e2 : Holdings} (h : e1.Perm e2)
    (hl : e1.length ≤ 1) : e1 = e2 := by
  match e1, hl with
  | [], _ => exact (List.nil_perm.mp h).symm
  | [x], _ => exact (List.singleton_perm.mp h)

/-! ## Claims -/

/-- C1, as amended.  For two different keys `investorID ≠ isin`, when `SubscribeAsset`
succeeds the records read back satisfy: available units = old available units - units,
balance = old balance - units * price, subscribed[isin] = old subscribed[isin] + units.
The arithmetic is that of Go `int`; each value is the mathematical one whenever the
mathematical one is a Go `int`. -/
theorem C1_subscribe_postcondition (cid : ClientIdentity) (st : Store)
    (investorID isin : String) (units : Int) (inv : Investor) (a : Asset)
    (hne : investorID ≠ isin)
    (hi : readInvestor st investorID = some inv) (ha : readAsset st isin = some a)
    (hok : (SubscribeAsset cid st investorID isin units).err = none) :
    ∃ inv1 a1,
      readInvestor (ledgerAfter st (SubscribeAsset cid st investorID isin units)) investorID =
        some inv1 ∧
      readAsset (ledgerAfter st (SubscribeAsset cid st investorID isin units)) isin = some a1 ∧
      a1.AvailableUnits = GoInt.sub a.AvailableUnits units ∧
      inv1.Balance = GoInt.sub inv.Balance (GoInt.mul units a.PricePerUnit) ∧
      inv1.units isin = GoInt.add (inv.units isin) units ∧
      (GoInt.InRange (a.AvailableUnits - units) →
        a1.AvailableUnits = a.AvailableUnits - units) ∧
      (GoInt.InRange (units * a.PricePerUnit) →
        GoInt.InRange (inv.Balance - units * a.PricePerUnit) →
        inv1.Balance = inv.Balance - units * a.PricePerUnit) ∧
      (GoInt.InRange (inv.units isin + units) → inv1.units isin = inv.units isin + units) := by
  obtain ⟨hauth, inv0, a0, m, hi0, ha0, hb, hu, hs⟩ := SubscribeAsset_ok_inv hok
  rw [hi] at hi0
  rw [ha] at ha0
  cases hi0
  cases ha0
  obtain ⟨h1, h2⟩ := SubscribeAsset_after hne hauth hi ha hb hu hs
  refine ⟨_, _, h1, h2, rfl, rfl, ?_, ?_, ?_, ?_⟩
  · simp [Investor.units, subscribedInvestor, hs, Holdings.get_set_same]
  · intro hr
    simp only [subscribedAsset, GoInt.sub]
    exact GoInt.wrap_of_inRange hr
  · intro hr1 hr2
    simp only [subscribedInvestor, GoInt.sub, GoInt.mul]
    rw [GoInt.wrap_of_inRange hr1, GoInt.wrap_of_inRange hr2]
  · intro hr
    have e := Investor.units_of_some hs isin
    rw [e] at hr ⊢
    simp only [Investor.units, subscribedInvestor, Holdings.get_set_same, GoInt.add]
    exact GoInt.wrap_of_inRange hr

/-- Witness of C1: the subscription of the client driver (100 units at price 50). -/
theorem C1_subscribe_postcondition_witness :
    ∃ inv1 a1,
      readInvestor (ledgerAfter scenarioStore
        (SubscribeAsset investorCaller scenarioStore "investor1" "US1234567890" 100))
        "investor1" = some inv1 ∧
      readAsset (ledgerAfter scenarioStore
        (SubscribeAsset investorCaller scenarioStore "investor1" "US1234567890" 100))
        "US1234567890" = some a1 ∧
      a1.AvailableUnits = GoInt.sub 1000 100 ∧
      inv1.Balance = GoInt.sub 10000 (GoInt.mul 100 50) ∧
      inv1.units "US1234567890" = GoInt.add 0 100 ∧
      (GoInt.InRange (1000 - 100) → a1.AvailableUnits = 1000 - 100) ∧
      (GoInt.InRange (100 * 50) → GoInt.InRange (10000 - 100 * 50) →
        inv1.Balance = 10000 - 100 * 50) ∧
      (GoInt.InRange (0 + 100) → inv1.units "US1234567890" = 0 + 100) :=
  C1_subscribe_postcondition investorCaller scenarioStore "investor1" "US1234567890" 100
    { InvestorID := "investor1", Balance := 10000, Subscribed := some [] }
    { ISIN := "US1234567890", CompanyName := "Tech Corp", AssetType := "Equity",
      TotalUnits := 1000, PricePerUnit := 50, AvailableUnits := 1000 }
    (by decide) (by decide) (by decide) (by decide)

/-- Counterexample to C1 as stated: with `investorID = isin = "investor1"` and 0 units
the call succeeds; the record under the key decodes as an asset of price 0, the asset
write replaces the investor record, and the investor read back has balance 0, not
`100 - 0 * 0`. -/
theorem C1_counterexample :
    (SubscribeAsset investorCaller collisionStore "investor1" "investor1" 0).err = none ∧
    (readInvestor collisionStore "investor1").map (fun i => i.Balance) = some 100 ∧
    (readAsset collisionStore "investor1").map (fun a => a.PricePerUnit) = some 0 ∧
    (readInvestor (ledgerAfter collisionStore
      (SubscribeAsset investorCaller collisionStore "investor1" "investor1" 0))
      "investor1").map (fun i => i.Balance) = some 0 ∧
    ¬ ((0 : Int) = 100 - 0 * 0) := by
  decide

/-- C2, as amended.  For two different keys `investorID ≠ isin`, if the investor holds
a non-negative number of units of `isin` and that number plus `u` is still a Go `int`,
then after a successful `SubscribeAsset(u)` the call `RedeemAsset(u)` succeeds and
brings balance, available units and subscribed[isin] back to their old values. -/
theorem C2_subscribe_redeem_roundtrip (cid : ClientIdentity) (st : Store)
    (investorID isin : String) (u : Int) (inv : Investor) (a : Asset)
    (hne : investorID ≠ isin)
    (hi : readInvestor st investorID = some inv) (ha : readAsset st isin = some a)
    (hok : (SubscribeAsset cid st investorID isin u).err = none)
    (h0 : 0 ≤ inv.units isin) (hmax : inv.units isin + u ≤ GoInt.maxInt) :
    (RedeemAsset cid (ledgerAfter st (SubscribeAsset cid st investorID isin u))
      investorID isin u).err = none ∧
    ∃ inv2 a2,
      readInvestor
        (ledgerAfter (ledgerAfter st (SubscribeAsset cid st investorID isin u))
          (RedeemAsset cid (ledgerAfter st (SubscribeAsset cid st investorID isin u))
            investorID isin u)) investorID = some inv2 ∧
      readAsset
        (ledgerAfter (ledgerAfter st (SubscribeAsset cid st investorID isin u))
          (RedeemAsset cid (ledgerAfter st (SubscribeAsset cid st investorID isin u))
            investorID isin u)) isin = some a2 ∧
      inv2.Balance = inv.Balance ∧ a2.AvailableUnits = a.AvailableUnits ∧
      inv2.units isin = inv.units isin := by
  obtain ⟨hauth, inv0, a0, m, hi0, ha0, hb, hu, hs⟩ := SubscribeAsset_ok_inv hok
  rw [hi] at hi0
  rw [ha] at ha0
  cases hi0
  cases ha0
  obtain ⟨h1, h2⟩ := SubscribeAsset_after hne hauth hi ha hb hu hs
  have hrI := readInvestor_inRange hi
  have hrA := readAsset_inRange ha
  have hsm : GoInt.InRange (m.get isin) := Holdings.get_inRange (hrI.2 m hs) isin
  have e := Investor.units_of_some hs isin
  rw [e] at h0 hmax
  have hs1 : (subscribedInvestor inv a m isin u).Subscribed =
      some (m.set isin (GoInt.add (m.get isin) u)) := rfl
  have hg : ¬ (subscribedInvestor inv a m isin u).units isin < u := by
    rw [Investor.units_of_some hs1, Holdings.get_set_same]
    unfold GoInt.maxInt at hmax
    unfold GoInt.InRange at hsm
    unfold GoInt.add GoInt.wrap
    omega
  obtain ⟨h3, h4⟩ := RedeemAsset_after hne hauth h1 h2 hg hs1
  refine ⟨?_, _, _, h3, h4, ?_, ?_, ?_⟩
  · rw [RedeemAsset_ok_eq hauth h1 h2 hg hs1]
  · have hbal := hrI.1
    simp only [redeemedInvestor, subscribedInvestor, subscribedAsset]
    generalize GoInt.mul u a.PricePerUnit = c
    unfold GoInt.InRange at hbal
    unfold GoInt.add GoInt.sub GoInt.wrap
    omega
  · have hav := hrA.2.2
    simp only [redeemedAsset, subscribedAsset]
    unfold GoInt.InRange at hav
    unfold GoInt.add GoInt.sub GoInt.wrap
    omega
  · rw [e]
    simp only [Investor.units, redeemedInvestor, Holdings.get_set_same]
    unfold GoInt.InRange at hsm
    unfold GoInt.add GoInt.sub GoInt.wrap
    omega

/-- Witness of C2: subscribe and redeem 100 units in the scenario of the client driver. -/
theorem C2_subscribe_redeem_roundtrip_witness :
    (RedeemAsset investorCaller
      (ledgerAfter scenarioStore
        (SubscribeAsset investorCaller scenarioStore "investor1" "US1234567890" 100))
      "investor1" "US1234567890" 100).err = none ∧
    ∃ inv2 a2,
      readInvestor
        (ledgerAfter (ledgerAfter scenarioStore
            (SubscribeAsset investorCaller scenarioStore "investor1" "US1234567890" 100))
          (RedeemAsset investorCaller (ledgerAfter scenarioStore
            (SubscribeAsset investorCaller scenarioStore "investor1" "US1234567890" 100))
            "investor1" "US1234567890" 100)) "investor1" = some inv2 ∧
      readAsset
        (ledgerAfter (ledgerAfter scenarioStore
            (SubscribeAsset investorCaller scenarioStore "investor1" "US1234567890" 100))
          (RedeemAsset investorCaller (ledgerAfter scenarioStore
            (SubscribeAsset investorCaller scenarioStore "investor1" "US1234567890" 100))
            "investor1" "US1234567890" 100)) "US1234567890" = some a2 ∧
      inv2.Balance = 10000 ∧ a2.AvailableUnits = 1000 ∧
      inv2.units "US1234567890" = 0 :=
  C2_subscribe_redeem_roundtrip investorCaller scenarioStore "investor1" "US1234567890" 100
    { InvestorID := "investor1", Balance := 10000, Subscribed := some [] }
    { ISIN := "US1234567890", CompanyName := "Tech Corp", AssetType := "Equity",
      TotalUnits := 1000, PricePerUnit := 50, AvailableUnits := 1000 }
    (by decide) (by decide) (by decide) (by decide) (by decide) (by decide)

/-- Counterexample to C2 as stated, three inputs on which the subscription succeeds and
the redemption of the same number of units fails.
(1) The investor holds -5 units: after subscribing 3 the holding is -2, below 3.
(2) `investorID = isin`: the asset write of the subscription replaces the investor
record, which then decodes with a nil holdings map, and the redemption panics.
(3) The investor holds the largest Go `int`: subscribing 1 more wraps the holding round
to the smallest `int`, below 1. -/
theorem C2_counterexample :
    ((readInvestor negativeHoldingStore "investor1").map
        (fun i => i.units "US1234567890") = some (-5) ∧
      (SubscribeAsset investorCaller negativeHoldingStore "investor1" "US1234567890" 3).err
        = none ∧
      (RedeemAsset investorCaller
        (ledgerAfter negativeHoldingStore
          (SubscribeAsset investorCaller negativeHoldingStore "investor1" "US1234567890" 3))
        "investor1" "US1234567890" 3).err = some (.error "insufficient units to redeem")) ∧
    ((SubscribeAsset investorCaller collisionStore "investor1" "investor1" 0).err = none ∧
      (RedeemAsset investorCaller
        (ledgerAfter collisionStore
          (SubscribeAsset investorCaller collisionStore "investor1" "investor1" 0))
        "investor1" "investor1" 0).err
        = some (.runtimePanic "assignment to entry in nil map")) ∧
    ((readInvestor fullHoldingStore "investor1").map
        (fun i => i.units "US1234567890") = some 9223372036854775807 ∧
      (SubscribeAsset investorCaller fullHoldingStore "investor1" "US1234567890" 1).err
        = none ∧
      (RedeemAsset investorCaller
        (ledgerAfter fullHoldingStore
          (SubscribeAsset investorCaller fullHoldingStore "investor1" "US1234567890" 1))
        "investor1" "US1234567890" 1).err = some (.error "insufficient units to redeem")) := by
  decide

/-- C3, as amended.  An authorized `SubscribeAsset` on a store holding both records
fails with "insufficient balance to subscribe", stages no write and no event, and leaves
the store, hence both records, as they were, whenever the cost the code computes, the Go
`int` product of `units` and `price_per_unit`, is above the balance; that is so in
particular when `units * price_per_unit` is a Go `int` and is above the balance. -/
theorem C3_insufficient_funds (cid : ClientIdentity) (st : Store) (investorID isin : String)
    (units : Int) (inv : Investor) (a : Asset) (hauth : cid.Authorized)
    (hi : readInvestor st investorID = some inv) (ha : readAsset st isin = some a)
    (hcost : GoInt.mul units a.PricePerUnit > inv.Balance ∨
      (GoInt.InRange (units * a.PricePerUnit) ∧ units * a.PricePerUnit > inv.Balance)) :
    (SubscribeAsset cid st investorID isin units).err =
        some (.error "insufficient balance to subscribe") ∧
      (SubscribeAsset cid st investorID isin units).writes = [] ∧
      (SubscribeAsset cid st investorID isin units).events = [] ∧
      ledgerAfter st (SubscribeAsset cid st investorID isin units) = st ∧
      readInvestor (ledgerAfter st (SubscribeAsset cid st investorID isin units)) investorID =
        some inv ∧
      readAsset (ledgerAfter st (SubscribeAsset cid st investorID isin units)) isin =
        some a := by
  have hlt : inv.Balance < GoInt.mul units a.PricePerUnit := by
    rcases hcost with h | ⟨hr, h⟩
    · exact h
    · have hw : GoInt.mul units a.PricePerUnit = units * a.PricePerUnit :=
        GoInt.wrap_of_inRange hr
      rw [hw]
      exact h
  rw [SubscribeAsset_eval units hauth hi ha, if_pos hlt]
  exact ⟨rfl, rfl, rfl, rfl, hi, ha⟩

/-- Witness of C3: 201 units at price 50 cost 10050, a Go `int` above the balance
10000. -/
theorem C3_insufficient_funds_witness :
    (SubscribeAsset investorCaller scenarioStore "investor1" "US1234567890" 201).err =
        some (.error "insufficient balance to subscribe") ∧
      (SubscribeAsset investorCaller scenarioStore "investor1" "US1234567890" 201).writes
        = [] ∧
      (SubscribeAsset investorCaller scenarioStore "investor1" "US1234567890" 201).events
        = [] ∧
      ledgerAfter scenarioStore
        (SubscribeAsset investorCaller scenarioStore "investor1" "US1234567890" 201)
        = scenarioStore ∧
      readInvestor (ledgerAfter scenarioStore
        (SubscribeAsset investorCaller scenarioStore "investor1" "US1234567890" 201))
        "investor1" =
        some { InvestorID := "investor1", Balance := 10000, Subscribed := some [] } ∧
      readAsset (ledgerAfter scenarioStore
        (SubscribeAsset investorCaller scenarioStore "investor1" "US1234567890" 201))
        "US1234567890" =
        some { ISIN := "US1234567890", CompanyName := "Tech Corp", AssetType := "Equity",
               TotalUnits := 1000, PricePerUnit := 50, AvailableUnits := 1000 } :=
  C3_insufficient_funds investorCaller scenarioStore "investor1" "US1234567890" 201
    { InvestorID := "investor1", Balance := 10000, Subscribed := some [] }
    { ISIN := "US1234567890", CompanyName := "Tech Corp", AssetType := "Equity",
      TotalUnits := 1000, PricePerUnit := 50, AvailableUnits := 1000 }
    (by decide) (by decide) (by decide) (Or.inr ⟨by decide, by decide⟩)

/-- Counterexample to C3 as stated: the caller is authorized and the store holds the
investor with balance 0 and the asset at price 4294967296; for 4294967296 units
`units * price_per_unit` is 18446744073709551616, above the balance, yet the call does
not fail: the cost the code computes is 0, the call returns no error and stages its two
writes. -/
theorem C3_counterexample :
    investorCaller.Authorized ∧
    (readInvestor wrapStore "investor1").map (fun i => i.Balance) = some 0 ∧
    (readAsset wrapStore "US1234567890").map (fun a => a.PricePerUnit) = some 4294967296 ∧
    (4294967296 : Int) * 4294967296 > 0 ∧
    GoInt.mul 4294967296 4294967296 = 0 ∧
    (SubscribeAsset investorCaller wrapStore "investor1" "US1234567890" 4294967296).err
      = none ∧
    (SubscribeAsset investorCaller wrapStore "investor1" "US1234567890" 4294967296).err
      ≠ some (.error "insufficient balance to subscribe") ∧
    (SubscribeAsset investorCaller wrapStore "investor1" "US1234567890" 4294967296).writes
      ≠ [] := by
  decide

/-- C4, as amended.  An authorized `SubscribeAsset` on a store holding both records,
with `units` above the available units, fails, stages no write and no event and leaves
the store as it was.  The funds guard is checked first: the error is "insufficient
balance to subscribe" when the cost the code computes, the Go `int` product of `units`
and `price_per_unit`, is above the balance, and "not enough available units" when it is
not.  When `units * price_per_unit` is a Go `int`, it is the cost the code computes. -/
theorem C4_insufficient_inventory (cid : ClientIdentity) (st : Store)
    (investorID isin : String) (units : Int) (inv : Investor) (a : Asset)
    (hauth : cid.Authorized)
    (hi : readInvestor st investorID = some inv) (ha : readAsset st isin = some a)
    (hunits : units > a.AvailableUnits) :
    (SubscribeAsset cid st investorID isin units).err =
        (if GoInt.mul units a.PricePerUnit > inv.Balance
          then some (.error "insufficient balance to subscribe")
          else some (.error "not enough available units")) ∧
      (GoInt.InRange (units * a.PricePerUnit) →
        (SubscribeAsset cid st investorID isin units).err =
          (if units * a.PricePerUnit > inv.Balance
            then some (.error "insufficient balance to subscribe")
            else some (.error "not enough available units"))) ∧
      (SubscribeAsset cid st investorID isin units).writes = [] ∧
      (SubscribeAsset cid st investorID isin units).events = [] ∧
      ledgerAfter st (SubscribeAsset cid st investorID isin units) = st ∧
      readInvestor (ledgerAfter st (SubscribeAsset cid st investorID isin units)) investorID =
        some inv ∧
      readAsset (ledgerAfter st (SubscribeAsset cid st investorID isin units)) isin =
        some a := by
  have hw : GoInt.InRange (units * a.PricePerUnit) →
      GoInt.mul units a.PricePerUnit = units * a.PricePerUnit :=
    fun hr => GoInt.wrap_of_inRange hr
  rw [SubscribeAsset_eval units hauth hi ha]
  by_cases hlt : inv.Balance < GoInt.mul units a.PricePerUnit
  · have hgt : GoInt.mul units a.PricePerUnit > inv.Balance := hlt
    rw [if_pos hlt, if_pos hgt]
    refine ⟨rfl, ?_, rfl, rfl, rfl, hi, ha⟩
    intro hr
    rw [hw hr] at hgt
    rw [if_pos hgt]
  · have hgt : ¬ GoInt.mul units a.PricePerUnit > inv.Balance := hlt
    rw [if_neg hlt, if_pos hunits, if_neg hgt]
    refine ⟨rfl, ?_, rfl, rfl, rfl, hi, ha⟩
    intro hr
    rw [hw hr] at hgt
    rw [if_neg hgt]

/-- Witness of C4: 11 units of an asset with 10 available, the cost 11 being within the
balance. -/
theorem C4_insufficient_inventory_witness :
    (SubscribeAsset investorCaller smallAssetStore "investor1" "US1234567890" 11).err =
        (if GoInt.mul 11 1 > 10000
          then some (.error "insufficient balance to subscribe")
          else some (.error "not enough available units")) ∧
      (GoInt.InRange (11 * 1) →
        (SubscribeAsset investorCaller smallAssetStore "investor1" "US1234567890" 11).err =
          (if (11 : Int) * 1 > 10000
            then some (.error "insufficient balance to subscribe")
            else some (.error "not enough available units"))) ∧
      (SubscribeAsset investorCaller smallAssetStore "investor1" "US1234567890" 11).writes
        = [] ∧
      (SubscribeAsset investorCaller smallAssetStore "investor1" "US1234567890" 11).events
        = [] ∧
      ledgerAfter smallAssetStore
        (SubscribeAsset investorCaller smallAssetStore "investor1" "US1234567890" 11)
        = smallAssetStore ∧
      readInvestor (ledgerAfter smallAssetStore
        (SubscribeAsset investorCaller smallAssetStore "investor1" "US1234567890" 11))
        "investor1" =
        some { InvestorID := "investor1", Balance := 10000, Subscribed := some [] } ∧
      readAsset (ledgerAfter smallAssetStore
        (SubscribeAsset investorCaller smallAssetStore "investor1" "US1234567890" 11))
        "US1234567890" =
        some { ISIN := "US1234567890", CompanyName := "Tech Corp", AssetType := "Equity",
               TotalUnits := 10, PricePerUnit := 1, AvailableUnits := 10 } :=
  C4_insufficient_inventory investorCaller smallAssetStore "investor1" "US1234567890" 11
    { InvestorID := "investor1", Balance := 10000, Subscribed := some [] }
    { ISIN := "US1234567890", CompanyName := "Tech Corp", AssetType := "Equity",
      TotalUnits := 10, PricePerUnit := 1, AvailableUnits := 10 }
    (by decide) (by decide) (by decide) (by decide)

/-- Counterexample to C4 as stated.
(1) 1001 units of the scenario asset (1000 available, price 50) cost 50050, above the
balance 10000; both guards fail and the error returned is the one of the funds guard,
not "not enough available units".
(2) Which of the two errors is returned follows the cost the code computes: 4294967296
units at price 4294967296 with 10 available and balance 0 have a product above the
balance, but the cost computed is 0 and the error is "not enough available units". -/
theorem C4_counterexample :
    ((readAsset scenarioStore "US1234567890").map (fun a => a.AvailableUnits) = some 1000 ∧
      (1001 : Int) > 1000 ∧
      (SubscribeAsset investorCaller scenarioStore "investor1" "US1234567890" 1001).err =
        some (.error "insufficient balance to subscribe") ∧
      (SubscribeAsset investorCaller scenarioStore "investor1" "US1234567890" 1001).err ≠
        some (.error "not enough available units")) ∧
    ((readInvestor wrapSmallStore "investor1").map (fun i => i.Balance) = some 0 ∧
      (readAsset wrapSmallStore "US1234567890").map
        (fun a => (a.PricePerUnit, a.AvailableUnits)) = some (4294967296, 10) ∧
      (4294967296 : Int) > 10 ∧
      (4294967296 : Int) * 4294967296 > 0 ∧
      GoInt.mul 4294967296 4294967296 = 0 ∧
      (SubscribeAsset investorCaller wrapSmallStore "investor1" "US1234567890"
        4294967296).err = some (.error "not enough available units")) := by
  decide

/-- C5.  An authorized `RedeemAsset` on a store holding both records, with `units` above
subscribed[isin] (0 when the ISIN is absent), fails with "insufficient units to redeem",
stages no write and no event, and leaves the store, hence both records, as they were. -/
theorem C5_insufficient_holdings (cid : ClientIdentity) (st : Store)
    (investorID isin : String) (units : Int) (inv : Investor) (a : Asset)
    (hauth : cid.Authorized)
    (hi : readInvestor st investorID = some inv) (ha : readAsset st isin = some a)
    (hunits : units > inv.units isin) :
    (RedeemAsset cid st investorID isin units).err =
        some (.error "insufficient units to redeem") ∧
      (RedeemAsset cid st investorID isin units).writes = [] ∧
      (RedeemAsset cid st investorID isin units).events = [] ∧
      ledgerAfter st (RedeemAsset cid st investorID isin units) = st ∧
      readInvestor (ledgerAfter st (RedeemAsset cid st investorID isin units)) investorID =
        some inv ∧
      readAsset (ledgerAfter st (RedeemAsset cid st investorID isin units)) isin =
        some a := by
  have hlt : inv.units isin < units := hunits
  rw [RedeemAsset_eval units hauth hi ha, if_pos hlt]
  exact ⟨rfl, rfl, rfl, rfl, hi, ha⟩

/-- Witness of C5: redeeming 1 unit when nothing is subscribed. -/
theorem C5_insufficient_holdings_witness :
    (RedeemAsset investorCaller scenarioStore "investor1" "US1234567890" 1).err =
        some (.error "insufficient units to redeem") ∧
      (RedeemAsset investorCaller scenarioStore "investor1" "US1234567890" 1).writes = [] ∧
      (RedeemAsset investorCaller scenarioStore "investor1" "US1234567890" 1).events = [] ∧
      ledgerAfter scenarioStore
        (RedeemAsset investorCaller scenarioStore "investor1" "US1234567890" 1)
        = scenarioStore ∧
      readInvestor (ledgerAfter scenarioStore
        (RedeemAsset investorCaller scenarioStore "investor1" "US1234567890" 1))
        "investor1" =
        some { InvestorID := "investor1", Balance := 10000, Subscribed := some [] } ∧
      readAsset (ledgerAfter scenarioStore
        (RedeemAsset investorCaller scenarioStore "investor1" "US1234567890" 1))
        "US1234567890" =
        some { ISIN := "US1234567890", CompanyName := "Tech Corp", AssetType := "Equity",
               TotalUnits := 1000, PricePerUnit := 50, AvailableUnits := 1000 } :=
  C5_insufficient_holdings investorCaller scenarioStore "investor1" "US1234567890" 1
    { InvestorID := "investor1", Balance := 10000, Subscribed := some [] }
    { ISIN := "US1234567890", CompanyName := "Tech Corp", AssetType := "Equity",
      TotalUnits := 1000, PricePerUnit := 50, AvailableUnits := 1000 }
    (by decide) (by decide) (by decide) (by decide)

/-- C6.  When the reply to `GetAttributeValue("role")` carries an error or a value other
than "Investor" (a missing attribute reads as the empty value), `SubscribeAsset` and
`RedeemAsset` return their authorization error with nothing read, nothing written and no
event set, on every store and for all arguments; the store is left as it was. -/
theorem C6_unauthorized (cid : ClientIdentity) (st : Store) (investorID isin : String)
    (units : Int)
    (hrole : (cid.GetAttributeValue "role").2 ≠ none ∨
      (cid.GetAttributeValue "role").1 ≠ "Investor") :
    SubscribeAsset cid st investorID isin units =
        { err := some (.error "only investors can subscribe to assets"),
          reads := [], writes := [], events := [] } ∧
      RedeemAsset cid st investorID isin units =
        { err := some (.error "only investors can Redeem the assets"),
          reads := [], writes := [], events := [] } ∧
      ledgerAfter st (SubscribeAsset cid st investorID isin units) = st ∧
      ledgerAfter st (RedeemAsset cid st investorID isin units) = st := by
  have h1 : SubscribeAsset cid st investorID isin units =
      { err := some (.error "only investors can subscribe to assets"),
        reads := [], writes := [], events := [] } := by
    unfold SubscribeAsset
    simp only [hrole, if_true]
  have h2 : RedeemAsset cid st investorID isin units =
      { err := some (.error "only investors can Redeem the assets"),
        reads := [], writes := [], events := [] } := by
    unfold RedeemAsset
    simp only [hrole, if_true]
  refine ⟨h1, h2, ?_, ?_⟩
  · rw [h1]; rfl
  · rw [h2]; rfl

/-- Witness of C6: a caller with role "Issuer" on the scenario ledger. -/
theorem C6_unauthorized_witness :
    SubscribeAsset issuerCaller scenarioStore "investor1" "US1234567890" 100 =
        { err := some (.error "only investors can subscribe to assets"),
          reads := [], writes := [], events := [] } ∧
      RedeemAsset issuerCaller scenarioStore "investor1" "US1234567890" 100 =
        { err := some (.error "only investors can Redeem the assets"),
          reads := [], writes := [], events := [] } ∧
      ledgerAfter scenarioStore
        (SubscribeAsset issuerCaller scenarioStore "investor1" "US1234567890" 100)
        = scenarioStore ∧
      ledgerAfter scenarioStore
        (RedeemAsset issuerCaller scenarioStore "investor1" "US1234567890" 100)
        = scenarioStore :=
  C6_unauthorized issuerCaller scenarioStore "investor1" "US1234567890" 100 (by decide)

/-- C7.  The scenario of the client driver: from the empty ledger, `CreateUser`,
`RegisterAsset`, `SubscribeAsset` of 100 units and `RedeemAsset` of 50 units all
succeed; after the subscription available = 900, balance = 5000, subscribed = 100, and
after the redemption available = 950, balance = 7500, subscribed = 50. -/
theorem C7_scenario :
    (CreateUser [] "investor1" 10000).err = none ∧
    (RegisterAsset (ledgerAfter [] (CreateUser [] "investor1" 10000))
      "US1234567890" "Tech Corp" "Equity" 1000 50).err = none ∧
    (SubscribeAsset investorCaller scenarioStore "investor1" "US1234567890" 100).err = none ∧
    (RedeemAsset investorCaller scenarioSubscribed "investor1" "US1234567890" 50).err = none ∧
    readAsset scenarioSubscribed "US1234567890" =
      some { ISIN := "US1234567890", CompanyName := "Tech Corp", AssetType := "Equity",
             TotalUnits := 1000, PricePerUnit := 50, AvailableUnits := 900 } ∧
    readInvestor scenarioSubscribed "investor1" =
      some { InvestorID := "investor1", Balance := 5000,
             Subscribed := some [("US1234567890", 100)] } ∧
    readAsset scenarioRedeemed "US1234567890" =
      some { ISIN := "US1234567890", CompanyName := "Tech Corp", AssetType := "Equity",
             TotalUnits := 1000, PricePerUnit := 50, AvailableUnits := 950 } ∧
    readInvestor scenarioRedeemed "investor1" =
      some { InvestorID := "investor1", Balance := 7500,
             Subscribed := some [("US1234567890", 50)] } := by
  decide

/-- C8, as amended.  For two different keys `investorID ≠ isin`, when `RedeemAsset`
succeeds the records read back satisfy: subscribed[isin] = old subscribed[isin] - units,
balance = old balance + units * price, available units = old available units + units.
The arithmetic is that of Go `int`; each value is the mathematical one whenever the
mathematical one is a Go `int`. -/
theorem C8_redeem_postcondition (cid : ClientIdentity) (st : Store)
    (investorID isin : String) (units : Int) (inv : Investor) (a : Asset)
    (hne : investorID ≠ isin)
    (hi : readInvestor st investorID = some inv) (ha : readAsset st isin = some a)
    (hok : (RedeemAsset cid st investorID isin units).err = none) :
    ∃ inv1 a1,
      readInvestor (ledgerAfter st (RedeemAsset cid st investorID isin units)) investorID =
        some inv1 ∧
      readAsset (ledgerAfter st (RedeemAsset cid st investorID isin units)) isin = some a1 ∧
      inv1.units isin = GoInt.sub (inv.units isin) units ∧
      inv1.Balance = GoInt.add inv.Balance (GoInt.mul units a.PricePerUnit) ∧
      a1.AvailableUnits = GoInt.add a.AvailableUnits units ∧
      (GoInt.InRange (inv.units isin - units) → inv1.units isin = inv.units isin - units) ∧
      (GoInt.InRange (units * a.PricePerUnit) →
        GoInt.InRange (inv.Balance + units * a.PricePerUnit) →
        inv1.Balance = inv.Balance + units * a.PricePerUnit) ∧
      (GoInt.InRange (a.AvailableUnits + units) →
        a1.AvailableUnits = a.AvailableUnits + units) := by
  obtain ⟨hauth, inv0, a0, m, hi0, ha0, hg, hs⟩ := RedeemAsset_ok_inv hok
  rw [hi] at hi0
  rw [ha] at ha0
  cases hi0
  cases ha0
  obtain ⟨h1, h2⟩ := RedeemAsset_after hne hauth hi ha hg hs
  have e := Investor.units_of_some hs isin
  refine ⟨_, _, h1, h2, ?_, rfl, rfl, ?_, ?_, ?_⟩
  · rw [e]
    simp [Investor.units, redeemedInvestor, Holdings.get_set_same]
  · intro hr
    rw [e] at hr ⊢
    simp only [Investor.units, redeemedInvestor, Holdings.get_set_same, GoInt.sub]
    exact GoInt.wrap_of_inRange hr
  · intro hr1 hr2
    simp only [redeemedInvestor, GoInt.add, GoInt.mul]
    rw [GoInt.wrap_of_inRange hr1, GoInt.wrap_of_inRange hr2]
  · intro hr
    simp only [redeemedAsset, GoInt.add]
    exact GoInt.wrap_of_inRange hr

/-- Witness of C8: the redemption of 50 units in the scenario of the client driver. -/
theorem C8_redeem_postcondition_witness :
    ∃ inv1 a1,
      readInvestor (ledgerAfter scenarioSubscribed
        (RedeemAsset investorCaller scenarioSubscribed "investor1" "US1234567890" 50))
        "investor1" = some inv1 ∧
      readAsset (ledgerAfter scenarioSubscribed
        (RedeemAsset investorCaller scenarioSubscribed "investor1" "US1234567890" 50))
        "US1234567890" = some a1 ∧
      inv1.units "US1234567890" = GoInt.sub 100 50 ∧
      inv1.Balance = GoInt.add 5000 (GoInt.mul 50 50) ∧
      a1.AvailableUnits = GoInt.add 900 50 ∧
      (GoInt.InRange (100 - 50) → inv1.units "US1234567890" = 100 - 50) ∧
      (GoInt.InRange (50 * 50) → GoInt.InRange (5000 + 50 * 50) →
        inv1.Balance = 5000 + 50 * 50) ∧
      (GoInt.InRange (900 + 50) → a1.AvailableUnits = 900 + 50) :=
  C8_redeem_postcondition investorCaller scenarioSubscribed "investor1" "US1234567890" 50
    { InvestorID := "investor1", Balance := 5000,
      Subscribed := some [("US1234567890", 100)] }
    { ISIN := "US1234567890", CompanyName := "Tech Corp", AssetType := "Equity",
      TotalUnits := 1000, PricePerUnit := 50, AvailableUnits := 900 }
    (by decide) (by decide) (by decide) (by decide)

/-- Counterexample to C8 as stated: with `investorID = isin = "investor1"` and 0 units
the call succeeds; the record under the key decodes as an asset of price 0, the asset
write replaces the investor record, and the investor read back has balance 0, not
`100 + 0 * 0`. -/
theorem C8_counterexample :
    (RedeemAsset investorCaller collisionStore "investor1" "investor1" 0).err = none ∧
    (readInvestor collisionStore "investor1").map (fun i => i.Balance) = some 100 ∧
    (readAsset collisionStore "investor1").map (fun a => a.PricePerUnit) = some 0 ∧
    (readInvestor (ledgerAfter collisionStore
      (RedeemAsset investorCaller collisionStore "investor1" "investor1" 0))
      "investor1").map (fun i => i.Balance) = some 0 ∧
    ¬ ((0 : Int) = 100 + 0 * 0) := by
  decide

/-- C9, as amended.  In every store reached from the empty store by a sequence of
`CreateUser`, `RegisterAsset`, `SubscribeAsset`, `RedeemAsset` and `GetPortfolio` calls
in which unit counts (`totalUnits`, `units`) are not negative and `CreateUser` and
`RegisterAsset` are only applied to a key of which no investor holds units at that time,
every asset read from the store satisfies `0 ≤ available_units ≤ total_units`.  In such a
store no investor holds units of a key that stores no record or stores an investor, so
these keys are open to `CreateUser` and `RegisterAsset`. -/
theorem C9_asset_invariant (calls : List Call) (hreg : RegularRun [] calls) :
    (∀ isin a, readAsset (run [] calls) isin = some a →
      0 ≤ a.AvailableUnits ∧ a.AvailableUnits ≤ a.TotalUnits) ∧
    (∀ key, ((run [] calls).get key = none ∨
        ∃ inv m, readInvestor (run [] calls) key = some inv ∧ inv.Subscribed = some m) →
      held (run [] calls) key = 0) := by
  have h := LedgerInv.empty.run hreg
  refine ⟨?_, fun key hk => h.held_eq_zero hk⟩
  intro isin a hread
  have h1 := h.asset isin a hread
  have h2 := held_nonneg (fun k d hm => h.nonneg k d hm isin)
  omega

/-- Witness of C9: the asset of the scenario of the client driver after all four calls
and a second `CreateUser` for the investor, who holds 50 units by then. -/
theorem C9_asset_invariant_witness :
    RegularRun [] reCreateCalls ∧
    readAsset (run [] reCreateCalls) "US1234567890" =
      some { ISIN := "US1234567890", CompanyName := "Tech Corp", AssetType := "Equity",
             TotalUnits := 1000, PricePerUnit := 50, AvailableUnits := 950 } ∧
    (0 : Int) ≤ 950 ∧ (950 : Int) ≤ 1000 :=
  ⟨by decide, by decide,
    (C9_asset_invariant reCreateCalls (by decide)).1 "US1234567890"
      { ISIN := "US1234567890", CompanyName := "Tech Corp", AssetType := "Equity",
        TotalUnits := 1000, PricePerUnit := 50, AvailableUnits := 950 } (by decide)⟩

/-- Counterexample to C9 as stated, five reachable stores with an asset outside
`0 ≤ available_units ≤ total_units`.
(1) A subscription of -5 units of an asset of 10 units leaves 15 available.
(2) `RegisterAsset` with -1 total units stores -1 available units.
(3) Registering the asset again with 3 units while 5 are held, then redeeming the 5,
leaves 8 available of 3.
(4) `CreateUser` on the key of the asset while 5 units are held, then redeeming the 5,
stores an asset with 5 available of 0.
(5) A redemption of -11 units of an asset of 10 units leaves -1 available. -/
theorem C9_counterexample :
    ((readAsset negativeHoldingStore "US1234567890").map
        (fun a => (a.TotalUnits, a.AvailableUnits)) = some (10, 15) ∧ ¬ ((15 : Int) ≤ 10)) ∧
    ((readAsset (run [] [.registerAsset "US1234567890" "Tech Corp" "Equity" (-1) 50])
        "US1234567890").map (fun a => (a.TotalUnits, a.AvailableUnits)) = some (-1, -1) ∧
      ¬ ((0 : Int) ≤ -1)) ∧
    ((readAsset reRegisteredStore "US1234567890").map
        (fun a => (a.TotalUnits, a.AvailableUnits)) = some (3, 8) ∧ ¬ ((8 : Int) ≤ 3)) ∧
    ((readAsset overwrittenAssetStore "US1234567890").map
        (fun a => (a.TotalUnits, a.AvailableUnits)) = some (0, 5) ∧ ¬ ((5 : Int) ≤ 0)) ∧
    ((readAsset negativeRedeemStore "US1234567890").map
        (fun a => (a.TotalUnits, a.AvailableUnits)) = some (10, -1) ∧
      ¬ ((0 : Int) ≤ -1)) := by
  decide

/-- C11, as amended.  For every stored investor, `GetPortfolio` succeeds and returns the
text `"Investor ID: <id>\nBalance: <balance>\nSubscribed Assets:\n"` followed by one
line `"- Asset: <isin>, Units: <units>\n"` for each entry of the holdings map, in the
order in which the Go run time visits the map (each entry once).  In the scenario of the
client driver the text is `"Investor ID: investor1\nBalance: 7500\nSubscribed Assets:\n"`
followed by the single line `"- Asset: US1234567890, Units: 50\n"`. -/
theorem C11_portfolio_text (rangeOrder : Holdings → Holdings) (st : Store)
    (investorID : String) (inv : Investor)
    (hperm : ∀ m, (rangeOrder m).Perm m)
    (hi : readInvestor st investorID = some inv) :
    (∃ entries : Holdings, entries.Perm (inv.Subscribed.getD []) ∧
      GetPortfolio rangeOrder st investorID =
        ("Investor ID: " ++ inv.InvestorID ++ "\nBalance: " ++ toString inv.Balance ++
            "\nSubscribed Assets:\n" ++ portfolioLines entries,
          { err := none, reads := [investorID], writes := [], events := [] })) ∧
    (∀ isin units rest, portfolioLines ((isin, units) :: rest) =
      "- Asset: " ++ isin ++ ", Units: " ++ toString units ++ "\n" ++ portfolioLines rest) ∧
    portfolioLines [] = "" ∧
    (GetPortfolio rangeOrder scenarioRedeemed "investor1").1 =
      "Investor ID: investor1\nBalance: 7500\nSubscribed Assets:\n" ++
        "- Asset: US1234567890, Units: 50\n" := by
  refine ⟨?_, fun _ _ _ => rfl, rfl, ?_⟩
  · rw [GetPortfolio_of_read hi]
    cases hs : inv.Subscribed with
    | none => exact ⟨[], List.Perm.refl _, rfl⟩
    | some m => exact ⟨rangeOrder m, hperm m, rfl⟩
  · have hsc : readInvestor scenarioRedeemed "investor1" =
        some { InvestorID := "investor1", Balance := 7500,
               Subscribed := some [("US1234567890", 50)] } := by decide
    rw [GetPortfolio_of_read hsc]
    have h1 : rangeOrder [("US1234567890", 50)] = [("US1234567890", 50)] :=
      List.perm_singleton.mp (hperm _)
    simp only [h1]
    decide

/-- Witness of C11: the portfolio of the scenario, the map visited in stored order. -/
theorem C11_portfolio_text_witness :
    (∃ entries : Holdings, entries.Perm [("US1234567890", 50)] ∧
      GetPortfolio id scenarioRedeemed "investor1" =
        ("Investor ID: " ++ "investor1" ++ "\nBalance: " ++ toString (7500 : Int) ++
            "\nSubscribed Assets:\n" ++ portfolioLines entries,
          { err := none, reads := ["investor1"], writes := [], events := [] })) ∧
    (∀ isin units rest, portfolioLines ((isin, units) :: rest) =
      "- Asset: " ++ isin ++ ", Units: " ++ toString units ++ "\n" ++ portfolioLines rest) ∧
    portfolioLines [] = "" ∧
    (GetPortfolio id scenarioRedeemed "investor1").1 =
      "Investor ID: investor1\nBalance: 7500\nSubscribed Assets:\n" ++
        "- Asset: US1234567890, Units: 50\n" :=
  C11_portfolio_text id scenarioRedeemed "investor1"
    { InvestorID := "investor1", Balance := 7500, Subscribed := some [("US1234567890", 50)] }
    (fun m => List.Perm.refl m) (by decide)

/-- Counterexample to C11 as stated: in the scenario the text returned, cut at the line
breaks, has the holdings line `- Asset: US1234567890, Units: 50`; no line of the text is
`US1234567890: 50`. -/
theorem C11_counterexample :
    ((GetPortfolio id scenarioRedeemed "investor1").1.toList.splitOn '\n').map String.mk =
      ["Investor ID: investor1", "Balance: 7500", "Subscribed Assets:",
       "- Asset: US1234567890, Units: 50", ""] ∧
    "US1234567890: 50" ∉
      ((GetPortfolio id scenarioRedeemed "investor1").1.toList.splitOn '\n').map String.mk := by
  decide

/-- C12.  On every store, an authorized `SubscribeAsset` or `RedeemAsset` fails with
"investor not found" when no record is stored under `investorID` (whatever is stored
under `isin`), and with "asset not found" when the investor record is stored and decodes
but no record is stored under `isin`; `GetPortfolio` fails with "investor not found"
when no record is stored under `investorID`.  In each case the write set is empty and
no event is set.  On a store reached from the empty store by invocations of the
contract, every stored record decodes, so that "asset not found" is returned whenever a
record is stored under `investorID` and none under `isin`. -/
theorem C12_not_found (cid : ClientIdentity) (rangeOrder : Holdings → Holdings) (st : Store)
    (investorID isin : String) (units : Int) (hauth : cid.Authorized) :
    (st.get investorID = none →
      SubscribeAsset cid st investorID isin units =
          { err := some (.error "investor not found"),
            reads := [investorID], writes := [], events := [] } ∧
        RedeemAsset cid st investorID isin units =
          { err := some (.error "investor not found"),
            reads := [investorID], writes := [], events := [] } ∧
        GetPortfolio rangeOrder st investorID =
          ("", { err := some (.error "investor not found"),
                 reads := [investorID], writes := [], events := [] })) ∧
    (∀ inv, readInvestor st investorID = some inv → st.get isin = none →
      SubscribeAsset cid st investorID isin units =
          { err := some (.error "asset not found"),
            reads := [investorID, isin], writes := [], events := [] } ∧
        RedeemAsset cid st investorID isin units =
          { err := some (.error "asset not found"),
            reads := [investorID, isin], writes := [], events := [] }) ∧
    (∀ calls : List Call, (∀ c ∈ calls, c.InRange) → st = run [] calls →
      st.get investorID ≠ none → st.get isin = none →
      SubscribeAsset cid st investorID isin units =
          { err := some (.error "asset not found"),
            reads := [investorID, isin], writes := [], events := [] } ∧
        RedeemAsset cid st investorID isin units =
          { err := some (.error "asset not found"),
            reads := [investorID, isin], writes := [], events := [] }) := by
  obtain ⟨h1, h2⟩ := hauth
  have hb : ∀ inv, readInvestor st investorID = some inv → st.get isin = none →
      SubscribeAsset cid st investorID isin units =
          { err := some (.error "asset not found"),
            reads := [investorID, isin], writes := [], events := [] } ∧
        RedeemAsset cid st investorID isin units =
          { err := some (.error "asset not found"),
            reads := [investorID, isin], writes := [], events := [] } := by
    intro inv hi hg2
    obtain ⟨d, hg, hd⟩ := readInvestor_eq_some.mp hi
    constructor
    · unfold SubscribeAsset
      simp [h1, h2, hg, hd, hg2]
    · unfold RedeemAsset
      simp [h1, h2, hg, hd, hg2]
  refine ⟨?_, hb, ?_⟩
  · intro hg
    refine ⟨?_, ?_, ?_⟩
    · unfold SubscribeAsset
      simp [h1, h2, hg]
    · unfold RedeemAsset
      simp [h1, h2, hg]
    · unfold GetPortfolio
      simp [hg]
  · intro calls hcalls hst hsome hnone
    have hw : Store.Written st := by
      rw [hst]
      exact Store.Written.nil.run_written hcalls
    cases hg : st.get investorID with
    | none => exact absurd hg hsome
    | some d =>
      obtain ⟨inv, hd⟩ := (hw investorID d hg).decodes
      exact hb inv (readInvestor_eq_some.mpr ⟨d, hg, hd⟩) hnone

/-- Witness of C12: on the scenario ledger the investor `investor2` and the asset
`US0000000000` are not stored. -/
theorem C12_not_found_witness :
    (SubscribeAsset investorCaller scenarioStore "investor2" "US1234567890" 1 =
        { err := some (.error "investor not found"),
          reads := ["investor2"], writes := [], events := [] } ∧
      RedeemAsset investorCaller scenarioStore "investor2" "US1234567890" 1 =
        { err := some (.error "investor not found"),
          reads := ["investor2"], writes := [], events := [] } ∧
      GetPortfolio id scenarioStore "investor2" =
        ("", { err := some (.error "investor not found"),
               reads := ["investor2"], writes := [], events := [] })) ∧
    (SubscribeAsset investorCaller scenarioStore "investor1" "US0000000000" 1 =
        { err := some (.error "asset not found"),
          reads := ["investor1", "US0000000000"], writes := [], events := [] } ∧
      RedeemAsset investorCaller scenarioStore "investor1" "US0000000000" 1 =
        { err := some (.error "asset not found"),
          reads := ["investor1", "US0000000000"], writes := [], events := [] }) ∧
    (SubscribeAsset investorCaller smallAssetStore "investor1" "US0000000000" 1 =
        { err := some (.error "asset not found"),
          reads := ["investor1", "US0000000000"], writes := [], events := [] } ∧
      RedeemAsset investorCaller smallAssetStore "investor1" "US0000000000" 1 =
        { err := some (.error "asset not found"),
          reads := ["investor1", "US0000000000"], writes := [], events := [] }) :=
  ⟨(C12_not_found investorCaller id scenarioStore "investor2" "US1234567890" 1
      (by decide)).1 (by decide),
   (C12_not_found investorCaller id scenarioStore "investor1" "US0000000000" 1
      (by decide)).2.1
      { InvestorID := "investor1", Balance := 10000, Subscribed := some [] }
      (by decide) (by decide),
   (C12_not_found investorCaller id smallAssetStore "investor1" "US0000000000" 1
      (by decide)).2.2
      [.createUser "investor1" 10000,
       .registerAsset "US1234567890" "Tech Corp" "Equity" 10 1]
      (by decide) rfl (by decide) (by decide)⟩

/-- C13, as amended.  On every store, for every non-empty key `isin` and all other
arguments (Go `int` values), `RegisterAsset` succeeds and stores under the key `isin`
the asset whose fields are the arguments and whose available units equal `totalUnits`,
whatever was stored under `isin` before; the value stored under every other key is
unchanged. -/
theorem C13_register_asset (st : Store) (isin companyName assetType : String)
    (totalUnits pricePerUnit : Int) (hkey : isin ≠ "")
    (ht : GoInt.InRange totalUnits) (hp : GoInt.InRange pricePerUnit) :
    (RegisterAsset st isin companyName assetType totalUnits pricePerUnit).err = none ∧
    readAsset (ledgerAfter st
        (RegisterAsset st isin companyName assetType totalUnits pricePerUnit)) isin =
      some { ISIN := isin, CompanyName := companyName, AssetType := assetType,
             TotalUnits := totalUnits, PricePerUnit := pricePerUnit,
             AvailableUnits := totalUnits } ∧
    (ledgerAfter st
        (RegisterAsset st isin companyName assetType totalUnits pricePerUnit)).get isin =
      some (marshalAsset { ISIN := isin, CompanyName := companyName, AssetType := assetType,
                           TotalUnits := totalUnits, PricePerUnit := pricePerUnit,
                           AvailableUnits := totalUnits }) ∧
    ∀ key, key ≠ isin →
      (ledgerAfter st
        (RegisterAsset st isin companyName assetType totalUnits pricePerUnit)).get key =
        st.get key := by
  have htx : RegisterAsset st isin companyName assetType totalUnits pricePerUnit =
      { err := none, reads := [],
        writes := [(isin, marshalAsset
          { ISIN := isin, CompanyName := companyName, AssetType := assetType,
            TotalUnits := totalUnits, PricePerUnit := pricePerUnit,
            AvailableUnits := totalUnits })],
        events := [] } := by
    simp [RegisterAsset, PutState, hkey]
  rw [htx]
  refine ⟨rfl, ?_, ?_, ?_⟩
  · exact readAsset_put_same st isin ⟨ht, hp, ht⟩
  · exact Store.get_put_same st isin _
  · intro key hne
    exact Store.get_put_ne st _ (Ne.symm hne)

/-- Witness of C13: the scenario asset registered again, with 7 units at price 3, after
100 units were subscribed. -/
theorem C13_register_asset_witness :
    (RegisterAsset scenarioSubscribed "US1234567890" "Tech Corp" "Equity" 7 3).err = none ∧
    readAsset (ledgerAfter scenarioSubscribed
        (RegisterAsset scenarioSubscribed "US1234567890" "Tech Corp" "Equity" 7 3))
        "US1234567890" =
      some { ISIN := "US1234567890", CompanyName := "Tech Corp", AssetType := "Equity",
             TotalUnits := 7, PricePerUnit := 3, AvailableUnits := 7 } ∧
    (ledgerAfter scenarioSubscribed
        (RegisterAsset scenarioSubscribed "US1234567890" "Tech Corp" "Equity" 7 3)).get
        "US1234567890" =
      some (marshalAsset { ISIN := "US1234567890", CompanyName := "Tech Corp",
                           AssetType := "Equity", TotalUnits := 7, PricePerUnit := 3,
                           AvailableUnits := 7 }) ∧
    ∀ key, key ≠ "US1234567890" →
      (ledgerAfter scenarioSubscribed
        (RegisterAsset scenarioSubscribed "US1234567890" "Tech Corp" "Equity" 7 3)).get key =
        scenarioSubscribed.get key :=
  C13_register_asset scenarioSubscribed "US1234567890" "Tech Corp" "Equity" 7 3
    (by decide) (by decide) (by decide)

/-- Counterexample to C13 as stated: with the empty string as `isin` the ledger stub
rejects the write; `RegisterAsset` returns that error and the store holds no record under
the key afterwards. -/
theorem C13_counterexample :
    (RegisterAsset scenarioStore "" "Tech Corp" "Equity" 1000 50).err =
      some (.error "key must not be an empty string") ∧
    (RegisterAsset scenarioStore "" "Tech Corp" "Equity" 1000 50).writes = [] ∧
    ledgerAfter scenarioStore (RegisterAsset scenarioStore "" "Tech Corp" "Equity" 1000 50)
      = scenarioStore ∧
    readAsset
      (ledgerAfter scenarioStore (RegisterAsset scenarioStore "" "Tech Corp" "Equity" 1000 50))
      "" = none := by
  decide

/-- C14, as amended.  On every store, for every non-empty key `investorID` and every Go
`int` balance, `CreateUser` succeeds and stores under the key `investorID` the investor
with that identifier, that balance and an empty, non-nil holdings map, whatever was
stored under the key before; the value stored under every other key is unchanged. -/
theorem C14_create_user (st : Store) (investorID : String) (balance : Int)
    (hkey : investorID ≠ "") (hb : GoInt.InRange balance) :
    (CreateUser st investorID balance).err = none ∧
    readInvestor (ledgerAfter st (CreateUser st investorID balance)) investorID =
      some { InvestorID := investorID, Balance := balance, Subscribed := some [] } ∧
    (ledgerAfter st (CreateUser st investorID balance)).get investorID =
      some (marshalInvestor
        { InvestorID := investorID, Balance := balance, Subscribed := some [] }) ∧
    ∀ key, key ≠ investorID →
      (ledgerAfter st (CreateUser st investorID balance)).get key = st.get key := by
  have htx : CreateUser st investorID balance =
      { err := none, reads := [],
        writes := [(investorID, marshalInvestor
          { InvestorID := investorID, Balance := balance, Subscribed := some [] })],
        events := [] } := by
    simp [CreateUser, PutState, hkey]
  rw [htx]
  refine ⟨rfl, ?_, ?_, ?_⟩
  · refine readInvestor_put_same st investorID ⟨hb, ?_⟩
    intro m hm e he
    simp only [Option.some.injEq] at hm
    subst hm
    simp at he
  · exact Store.get_put_same st investorID _
  · intro key hne
    exact Store.get_put_ne st _ (Ne.symm hne)

/-- Witness of C14: `investor1` created again with balance 5 after 100 units were
subscribed. -/
theorem C14_create_user_witness :
    (CreateUser scenarioSubscribed "investor1" 5).err = none ∧
    readInvestor (ledgerAfter scenarioSubscribed (CreateUser scenarioSubscribed "investor1" 5))
        "investor1" =
      some { InvestorID := "investor1", Balance := 5, Subscribed := some [] } ∧
    (ledgerAfter scenarioSubscribed (CreateUser scenarioSubscribed "investor1" 5)).get
        "investor1" =
      some (marshalInvestor
        { InvestorID := "investor1", Balance := 5, Subscribed := some [] }) ∧
    ∀ key, key ≠ "investor1" →
      (ledgerAfter scenarioSubscribed (CreateUser scenarioSubscribed "investor1" 5)).get key =
        scenarioSubscribed.get key :=
  C14_create_user scenarioSubscribed "investor1" 5 (by decide) (by decide)

/-- Counterexample to C14 as stated: with the empty string as `investorID` the ledger
stub rejects the write; `CreateUser` returns that error and the store holds no record
under the key afterwards. -/
theorem C14_counterexample :
    (CreateUser scenarioStore "" 100).err =
      some (.error "key must not be an empty string") ∧
    (CreateUser scenarioStore "" 100).writes = [] ∧
    ledgerAfter scenarioStore (CreateUser scenarioStore "" 100) = scenarioStore ∧
    readInvestor (ledgerAfter scenarioStore (CreateUser scenarioStore "" 100)) "" = none := by
  decide

/-- C15.  `SubscribeAsset` succeeds exactly when the caller is authorized, both records
are read, both guards pass and the holdings map is not nil; it sets exactly one event
when it succeeds, named "SubscriptionEvent" with payload "Investor <investorID>
subscribed to <units> units of asset <isin>", and none when it returns an error.
`RedeemAsset` likewise, with its own guard, "RedemptionEvent" and "Investor <investorID>
redeemed <units> units of asset <isin>".  `CreateUser`, `RegisterAsset` and
`GetPortfolio` never set an event. -/
theorem C15_events (cid : ClientIdentity) (rangeOrder : Holdings → Holdings) (st : Store)
    (investorID isin companyName assetType : String)
    (units balance totalUnits pricePerUnit : Int) :
    ((SubscribeAsset cid st investorID isin units).err = none ↔
      cid.Authorized ∧ ∃ inv a subscribed,
        readInvestor st investorID = some inv ∧ readAsset st isin = some a ∧
        ¬ inv.Balance < GoInt.mul units a.PricePerUnit ∧ ¬ units > a.AvailableUnits ∧
        inv.Subscribed = some subscribed) ∧
    (SubscribeAsset cid st investorID isin units).events =
      (if (SubscribeAsset cid st investorID isin units).err = none then
        [("SubscriptionEvent",
          "Investor " ++ investorID ++ " subscribed to " ++ toString units ++
            " units of asset " ++ isin)]
      else []) ∧
    ((RedeemAsset cid st investorID isin units).err = none ↔
      cid.Authorized ∧ ∃ inv a subscribed,
        readInvestor st investorID = some inv ∧ readAsset st isin = some a ∧
        ¬ inv.units isin < units ∧ inv.Subscribed = some subscribed) ∧
    (RedeemAsset cid st investorID isin units).events =
      (if (RedeemAsset cid st investorID isin units).err = none then
        [("RedemptionEvent",
          "Investor " ++ investorID ++ " redeemed " ++ toString units ++
            " units of asset " ++ isin)]
      else []) ∧
    (CreateUser st investorID balance).events = [] ∧
    (RegisterAsset st isin companyName assetType totalUnits pricePerUnit).events = [] ∧
    (GetPortfolio rangeOrder st investorID).2.events = [] := by
  refine ⟨⟨SubscribeAsset_ok_inv, ?_⟩, SubscribeAsset_events cid st investorID isin units,
    ⟨RedeemAsset_ok_inv, ?_⟩, RedeemAsset_events cid st investorID isin units, ?_, ?_,
    (GetPortfolio_effects rangeOrder st investorID).2⟩
  · rintro ⟨hauth, inv, a, m, hi, ha, hb, hu, hs⟩
    rw [SubscribeAsset_ok_eq hauth hi ha hb hu hs]
  · rintro ⟨hauth, inv, a, m, hi, ha, hg, hs⟩
    rw [RedeemAsset_ok_eq hauth hi ha hg hs]
  · unfold CreateUser
    simp only
    split <;> rfl
  · unfold RegisterAsset
    simp only
    split <;> rfl

/-- Witness of C15: in the scenario of the client driver the subscription of 100 units
and the redemption of 50 units succeed and set their event; the subscription by a caller
with role "Issuer" fails and sets none. -/
theorem C15_events_witness :
    (SubscribeAsset investorCaller scenarioStore "investor1" "US1234567890" 100).err
      = none ∧
    (SubscribeAsset investorCaller scenarioStore "investor1" "US1234567890" 100).events =
      [("SubscriptionEvent",
        "Investor investor1 subscribed to 100 units of asset US1234567890")] ∧
    (RedeemAsset investorCaller scenarioSubscribed "investor1" "US1234567890" 50).err
      = none ∧
    (RedeemAsset investorCaller scenarioSubscribed "investor1" "US1234567890" 50).events =
      [("RedemptionEvent",
        "Investor investor1 redeemed 50 units of asset US1234567890")] ∧
    (SubscribeAsset issuerCaller scenarioStore "investor1" "US1234567890" 100).events = [] :=
  ⟨(C15_events investorCaller id scenarioStore "investor1" "US1234567890" "" "" 100 0 0
      0).1.mpr
      ⟨by decide, { InvestorID := "investor1", Balance := 10000, Subscribed := some [] },
        { ISIN := "US1234567890", CompanyName := "Tech Corp", AssetType := "Equity",
          TotalUnits := 1000, PricePerUnit := 50, AvailableUnits := 1000 }, [],
        by decide, by decide, by decide, by decide, rfl⟩,
    (C15_events investorCaller id scenarioStore "investor1" "US1234567890" "" "" 100 0 0
      0).2.1.trans (by decide),
    (C15_events investorCaller id scenarioSubscribed "investor1" "US1234567890" "" "" 50 0 0
      0).2.2.1.mpr
      ⟨by decide, { InvestorID := "investor1", Balance := 5000,
                    Subscribed := some [("US1234567890", 100)] },
        { ISIN := "US1234567890", CompanyName := "Tech Corp", AssetType := "Equity",
          TotalUnits := 1000, PricePerUnit := 50, AvailableUnits := 900 },
        [("US1234567890", 100)], by decide, by decide, by decide, rfl⟩,
    (C15_events investorCaller id scenarioSubscribed "investor1" "US1234567890" "" "" 50 0 0
      0).2.2.2.1.trans (by decide),
    (C15_events issuerCaller id scenarioStore "investor1" "US1234567890" "" "" 100 0 0
      0).2.1.trans (by decide)⟩

/-- C16, as amended.  The text of `GetPortfolio` is determined by the stored record and
by the order in which the Go run time visits the holdings map: its head is
`"Investor ID: <id>\nBalance: <balance>\nSubscribed Assets:\n"` and its holdings lines
are those of the entries of the map, each once, in the order visited, which is not
sorted.  Two runs, and two investors whose holdings maps have the same entries, get the
same holdings lines up to their order, and the same lines in the same order when the
map has at most one entry. -/
theorem C16_portfolio_up_to_order (order1 order2 : Holdings → Holdings) (st1 st2 : Store)
    (investorID1 investorID2 : String) (inv1 inv2 : Investor)
    (h1 : ∀ m, (order1 m).Perm m) (h2 : ∀ m, (order2 m).Perm m)
    (hi1 : readInvestor st1 investorID1 = some inv1)
    (hi2 : readInvestor st2 investorID2 = some inv2)
    (hmap : (inv1.Subscribed.getD []).Perm (inv2.Subscribed.getD [])) :
    ∃ entries1 entries2 : Holdings,
      entries1.Perm (inv1.Subscribed.getD []) ∧ entries1.Perm entries2 ∧
      (GetPortfolio order1 st1 investorID1).1 =
        "Investor ID: " ++ inv1.InvestorID ++ "\nBalance: " ++ toString inv1.Balance ++
          "\nSubscribed Assets:\n" ++ portfolioLines entries1 ∧
      (GetPortfolio order2 st2 investorID2).1 =
        "Investor ID: " ++ inv2.InvestorID ++ "\nBalance: " ++ toString inv2.Balance ++
          "\nSubscribed Assets:\n" ++ portfolioLines entries2 ∧
      ((inv1.Subscribed.getD []).length ≤ 1 →
        portfolioLines entries1 = portfolioLines entries2) := by
  have he1 : ∃ entries1 : Holdings, entries1.Perm (inv1.Subscribed.getD []) ∧
      GetPortfolio order1 st1 investorID1 =
        ("Investor ID: " ++ inv1.InvestorID ++ "\nBalance: " ++ toString inv1.Balance ++
            "\nSubscribed Assets:\n" ++ portfolioLines entries1,
          { err := none, reads := [investorID1], writes := [], events := [] }) := by
    rw [GetPortfolio_of_read hi1]
    cases hs : inv1.Subscribed with
    | none => exact ⟨[], List.Perm.refl _, rfl⟩
    | some m => exact ⟨order1 m, h1 m, rfl⟩
  have he2 : ∃ entries2 : Holdings, entries2.Perm (inv2.Subscribed.getD []) ∧
      GetPortfolio order2 st2 investorID2 =
        ("Investor ID: " ++ inv2.InvestorID ++ "\nBalance: " ++ toString inv2.Balance ++
            "\nSubscribed Assets:\n" ++ portfolioLines entries2,
          { err := none, reads := [investorID2], writes := [], events := [] }) := by
    rw [GetPortfolio_of_read hi2]
    cases hs : inv2.Subscribed with
    | none => exact ⟨[], List.Perm.refl _, rfl⟩
    | some m => exact ⟨order2 m, h2 m, rfl⟩
  obtain ⟨e1, hp1, ht1⟩ := he1
  obtain ⟨e2, hp2, ht2⟩ := he2
  have hp : e1.Perm e2 := (hp1.trans hmap).trans hp2.symm
  refine ⟨e1, e2, hp1, hp, ?_, ?_, ?_⟩
  · rw [ht1]
  · rw [ht2]
  · intro hl
    have hl1 : e1.length ≤ 1 := by
      rw [hp1.length_eq]
      exact hl
    rw [Holdings.perm_eq_of_length_le_one hp hl1]

/-- Witness of C16: two runs on the ledger with two holdings, the map visited in stored
order and in reverse order. -/
theorem C16_portfolio_up_to_order_witness :
    ∃ entries1 entries2 : Holdings,
      entries1.Perm [("US1234567890", 1), ("US0987654321", 1)] ∧ entries1.Perm entries2 ∧
      (GetPortfolio id twoHoldingsStore "investor1").1 =
        "Investor ID: " ++ "investor1" ++ "\nBalance: " ++ toString (9930 : Int) ++
          "\nSubscribed Assets:\n" ++ portfolioLines entries1 ∧
      (GetPortfolio List.reverse twoHoldingsStore "investor1").1 =
        "Investor ID: " ++ "investor1" ++ "\nBalance: " ++ toString (9930 : Int) ++
          "\nSubscribed Assets:\n" ++ portfolioLines entries2 ∧
      ((2 : Nat) ≤ 1 → portfolioLines entries1 = portfolioLines entries2) :=
  C16_portfolio_up_to_order id List.reverse twoHoldingsStore twoHoldingsStore
    "investor1" "investor1"
    { InvestorID := "investor1", Balance := 9930,
      Subscribed := some [("US1234567890", 1), ("US0987654321", 1)] }
    { InvestorID := "investor1", Balance := 9930,
      Subscribed := some [("US1234567890", 1), ("US0987654321", 1)] }
    (fun m => List.Perm.refl m) (fun m => List.reverse_perm m) (by decide) (by decide)
    (List.Perm.refl _)

/-- Counterexample to C16 as stated.  `GetPortfolio` ranges over the Go map of
holdings, whose iteration order the run time picks anew on every run.  For an investor
with two holdings, two admissible orders (each visits every entry once) give two
different texts on the same store, so the text is not a function of the stored record
and its lines are not in a fixed (sorted) order. -/
theorem C16_counterexample :
    (readInvestor twoHoldingsStore "investor1").map (fun i => i.Subscribed) =
      some (some [("US1234567890", 1), ("US0987654321", 1)]) ∧
    (∀ m : Holdings, (id m).Perm m) ∧ (∀ m : Holdings, (List.reverse m).Perm m) ∧
    (GetPortfolio id twoHoldingsStore "investor1").1 =
      "Investor ID: investor1\nBalance: 9930\nSubscribed Assets:\n" ++
        "- Asset: US1234567890, Units: 1\n- Asset: US0987654321, Units: 1\n" ∧
    (GetPortfolio List.reverse twoHoldingsStore "investor1").1 =
      "Investor ID: investor1\nBalance: 9930\nSubscribed Assets:\n" ++
        "- Asset: US0987654321, Units: 1\n- Asset: US1234567890, Units: 1\n" ∧
    (GetPortfolio id twoHoldingsStore "investor1").1 ≠
      (GetPortfolio List.reverse twoHoldingsStore "investor1").1 :=
  ⟨by decide, fun m => List.Perm.refl m, fun m => List.reverse_perm m, by decide, by decide,
    by decide⟩

/-- C17, as amended.  The cost of `SubscribeAsset` and the proceeds of `RedeemAsset` are
the product `units * price_per_unit` reduced into the 64-bit `int` range.  Whenever the
mathematical product is itself a Go `int`, the code computes exactly that product: the
funds guard rejects exactly when the product exceeds the balance, and both transactions
are the ones obtained with the mathematical product as cost and as proceeds. -/
theorem C17_exact_cost (cid : ClientIdentity) (st : Store) (investorID isin : String)
    (units : Int) (inv : Investor) (a : Asset) (hauth : cid.Authorized)
    (hi : readInvestor st investorID = some inv) (ha : readAsset st isin = some a)
    (hr : GoInt.InRange (units * a.PricePerUnit)) :
    GoInt.mul units a.PricePerUnit = units * a.PricePerUnit ∧
    ((SubscribeAsset cid st investorID isin units).err =
        some (.error "insufficient balance to subscribe") ↔
      units * a.PricePerUnit > inv.Balance) ∧
    SubscribeAsset cid st investorID isin units =
      (if inv.Balance < units * a.PricePerUnit then
        { err := some (.error "insufficient balance to subscribe"),
          reads := [investorID, isin], writes := [], events := [] }
      else if units > a.AvailableUnits then
        { err := some (.error "not enough available units"),
          reads := [investorID, isin], writes := [], events := [] }
      else
      match inv.Subscribed with
      | none =>
        { err := some (.runtimePanic "assignment to entry in nil map"),
          reads := [investorID, isin], writes := [], events := [] }
      | some subscribed =>
        { err := none, reads := [investorID, isin],
          writes :=
            [(investorID, marshalInvestor
                { inv with
                  Subscribed := some (subscribed.set isin (GoInt.add (subscribed.get isin) units)),
                  Balance := GoInt.sub inv.Balance (units * a.PricePerUnit) }),
             (isin, marshalAsset
                { a with AvailableUnits := GoInt.sub a.AvailableUnits units })],
          events := [("SubscriptionEvent",
            "Investor " ++ investorID ++ " subscribed to " ++ toString units ++
              " units of asset " ++ isin)] }) ∧
    RedeemAsset cid st investorID isin units =
      (if inv.units isin < units then
        { err := some (.error "insufficient units to redeem"),
          reads := [investorID, isin], writes := [], events := [] }
      else
      match inv.Subscribed with
      | none =>
        { err := some (.runtimePanic "assignment to entry in nil map"),
          reads := [investorID, isin], writes := [], events := [] }
      | some subscribed =>
        { err := none, reads := [investorID, isin],
          writes :=
            [(investorID, marshalInvestor
                { inv with
                  Subscribed := some (subscribed.set isin (GoInt.sub (subscribed.get isin) units)),
                  Balance := GoInt.add inv.Balance (units * a.PricePerUnit) }),
             (isin, marshalAsset
                { a with AvailableUnits := GoInt.add a.AvailableUnits units })],
          events := [("RedemptionEvent",
            "Investor " ++ investorID ++ " redeemed " ++ toString units ++
              " units of asset " ++ isin)] }) := by
  have hmul : GoInt.mul units a.PricePerUnit = units * a.PricePerUnit :=
    GoInt.wrap_of_inRange hr
  refine ⟨hmul, ?_, ?_, ?_⟩
  · rw [SubscribeAsset_eval units hauth hi ha, hmul]
    by_cases hb : inv.Balance < units * a.PricePerUnit
    · rw [if_pos hb]
      exact ⟨fun _ => hb, fun _ => rfl⟩
    · rw [if_neg hb]
      constructor
      · intro h
        exfalso
        by_cases hu : units > a.AvailableUnits
        · rw [if_pos hu] at h
          simp at h
        · rw [if_neg hu] at h
          cases hs : inv.Subscribed with
          | none => rw [hs] at h; simp at h
          | some m => rw [hs] at h; simp at h
      · intro h
        exact absurd h hb
  · rw [SubscribeAsset_eval units hauth hi ha, hmul]
  · rw [RedeemAsset_eval units hauth hi ha, hmul]

/-- Witness of C17: 100 units at price 50 in the scenario of the client driver. -/
theorem C17_exact_cost_witness :
    GoInt.mul 100 50 = 100 * 50 ∧
    ((SubscribeAsset investorCaller scenarioStore "investor1" "US1234567890" 100).err =
        some (.error "insufficient balance to subscribe") ↔ (100 : Int) * 50 > 10000) :=
  ⟨(C17_exact_cost investorCaller scenarioStore "investor1" "US1234567890" 100
      { InvestorID := "investor1", Balance := 10000, Subscribed := some [] }
      { ISIN := "US1234567890", CompanyName := "Tech Corp", AssetType := "Equity",
        TotalUnits := 1000, PricePerUnit := 50, AvailableUnits := 1000 }
      (by decide) (by decide) (by decide) (by decide)).1,
   (C17_exact_cost investorCaller scenarioStore "investor1" "US1234567890" 100
      { InvestorID := "investor1", Balance := 10000, Subscribed := some [] }
      { ISIN := "US1234567890", CompanyName := "Tech Corp", AssetType := "Equity",
        TotalUnits := 1000, PricePerUnit := 50, AvailableUnits := 1000 }
      (by decide) (by decide) (by decide) (by decide)).2.1⟩

/-- Counterexample to C17 as stated: 4294967296 units at price 4294967296 are Go `int`
values; their product is 18446744073709551616, the cost the code computes is 0.  With
balance 0 the true product exceeds the balance, yet the funds guard does not reject:
the subscription succeeds and the balance stays 0; the redemption of the same units
adds 0. -/
theorem C17_counterexample :
    GoInt.InRange 4294967296 ∧
    (4294967296 : Int) * 4294967296 = 18446744073709551616 ∧
    GoInt.mul 4294967296 4294967296 = 0 ∧
    (readInvestor wrapStore "investor1").map (fun i => i.Balance) = some 0 ∧
    (readAsset wrapStore "US1234567890").map (fun a => a.PricePerUnit) = some 4294967296 ∧
    (4294967296 : Int) * 4294967296 > 0 ∧
    (SubscribeAsset investorCaller wrapStore "investor1" "US1234567890" 4294967296).err
      = none ∧
    (readInvestor (ledgerAfter wrapStore
      (SubscribeAsset investorCaller wrapStore "investor1" "US1234567890" 4294967296))
      "investor1").map (fun i => i.Balance) = some 0 ∧
    (readInvestor (run wrapStore
      [.subscribeAsset investorCaller "investor1" "US1234567890" 4294967296,
       .redeemAsset investorCaller "investor1" "US1234567890" 4294967296])
      "investor1").map (fun i => i.Balance) = some 0 := by
  decide

/-- C18, as amended.  For two different keys `investorID ≠ isin` and asset price `p`, a
successful `SubscribeAsset` or `RedeemAsset` leaves `available_units + subscribed[isin]`
and `balance + p * subscribed[isin]` as they were, the sums taken in Go `int` arithmetic;
they are also equal as mathematical integers whenever the updates of the call stay
within the Go `int` range. -/
theorem C18_conservation (cid : ClientIdentity) (st : Store) (investorID isin : String)
    (units : Int) (inv : Investor) (a : Asset) (hne : investorID ≠ isin)
    (hi : readInvestor st investorID = some inv) (ha : readAsset st isin = some a) :
    ((SubscribeAsset cid st investorID isin units).err = none →
      ∃ inv1 a1,
        readInvestor (ledgerAfter st (SubscribeAsset cid st investorID isin units))
          investorID = some inv1 ∧
        readAsset (ledgerAfter st (SubscribeAsset cid st investorID isin units)) isin
          = some a1 ∧
        a1.PricePerUnit = a.PricePerUnit ∧
        GoInt.add a1.AvailableUnits (inv1.units isin) =
          GoInt.add a.AvailableUnits (inv.units isin) ∧
        GoInt.add inv1.Balance (GoInt.mul a.PricePerUnit (inv1.units isin)) =
          GoInt.add inv.Balance (GoInt.mul a.PricePerUnit (inv.units isin)) ∧
        (GoInt.InRange (a.AvailableUnits - units) → GoInt.InRange (inv.units isin + units) →
          a1.AvailableUnits + inv1.units isin = a.AvailableUnits + inv.units isin) ∧
        (GoInt.InRange (units * a.PricePerUnit) →
          GoInt.InRange (inv.Balance - units * a.PricePerUnit) →
          GoInt.InRange (inv.units isin + units) →
          inv1.Balance + a.PricePerUnit * inv1.units isin =
            inv.Balance + a.PricePerUnit * inv.units isin)) ∧
    ((RedeemAsset cid st investorID isin units).err = none →
      ∃ inv1 a1,
        readInvestor (ledgerAfter st (RedeemAsset cid st investorID isin units))
          investorID = some inv1 ∧
        readAsset (ledgerAfter st (RedeemAsset cid st investorID isin units)) isin
          = some a1 ∧
        a1.PricePerUnit = a.PricePerUnit ∧
        GoInt.add a1.AvailableUnits (inv1.units isin) =
          GoInt.add a.AvailableUnits (inv.units isin) ∧
        GoInt.add inv1.Balance (GoInt.mul a.PricePerUnit (inv1.units isin)) =
          GoInt.add inv.Balance (GoInt.mul a.PricePerUnit (inv.units isin)) ∧
        (GoInt.InRange (a.AvailableUnits + units) → GoInt.InRange (inv.units isin - units) →
          a1.AvailableUnits + inv1.units isin = a.AvailableUnits + inv.units isin) ∧
        (GoInt.InRange (units * a.PricePerUnit) →
          GoInt.InRange (inv.Balance + units * a.PricePerUnit) →
          GoInt.InRange (inv.units isin - units) →
          inv1.Balance + a.PricePerUnit * inv1.units isin =
            inv.Balance + a.PricePerUnit * inv.units isin)) := by
  constructor
  · intro hok
    obtain ⟨hauth, inv0, a0, m, hi0, ha0, hb, hu, hs⟩ := SubscribeAsset_ok_inv hok
    rw [hi] at hi0
    rw [ha] at ha0
    cases hi0
    cases ha0
    obtain ⟨h1, h2⟩ := SubscribeAsset_after hne hauth hi ha hb hu hs
    have e := Investor.units_of_some hs isin
    have e1 : (subscribedInvestor inv a m isin units).units isin =
        GoInt.add (m.get isin) units := by
      simp [Investor.units, subscribedInvestor, Holdings.get_set_same]
    refine ⟨_, _, h1, h2, rfl, ?_, ?_, ?_, ?_⟩
    · rw [e, e1]
      simp only [subscribedAsset]
      unfold GoInt.add GoInt.sub GoInt.wrap
      omega
    · rw [e, e1]
      exact GoInt.pay_conserves _ _ _ _
    · intro hr1 hr2
      rw [e] at hr2 ⊢
      rw [e1]
      simp only [subscribedAsset, GoInt.add, GoInt.sub]
      rw [GoInt.wrap_of_inRange hr1, GoInt.wrap_of_inRange hr2]
      ring
    · intro hr1 hr2 hr3
      rw [e] at hr3 ⊢
      rw [e1]
      simp only [subscribedInvestor, GoInt.add, GoInt.sub, GoInt.mul]
      rw [GoInt.wrap_of_inRange hr1, GoInt.wrap_of_inRange hr2, GoInt.wrap_of_inRange hr3]
      ring
  · intro hok
    obtain ⟨hauth, inv0, a0, m, hi0, ha0, hg, hs⟩ := RedeemAsset_ok_inv hok
    rw [hi] at hi0
    rw [ha] at ha0
    cases hi0
    cases ha0
    obtain ⟨h1, h2⟩ := RedeemAsset_after hne hauth hi ha hg hs
    have e := Investor.units_of_some hs isin
    have e1 : (redeemedInvestor inv a m isin units).units isin =
        GoInt.sub (m.get isin) units := by
      simp [Investor.units, redeemedInvestor, Holdings.get_set_same]
    refine ⟨_, _, h1, h2, rfl, ?_, ?_, ?_, ?_⟩
    · rw [e, e1]
      simp only [redeemedAsset]
      unfold GoInt.add GoInt.sub GoInt.wrap
      omega
    · rw [e, e1]
      exact GoInt.receive_conserves _ _ _ _
    · intro hr1 hr2
      rw [e] at hr2 ⊢
      rw [e1]
      simp only [redeemedAsset, GoInt.add, GoInt.sub]
      rw [GoInt.wrap_of_inRange hr1, GoInt.wrap_of_inRange hr2]
      ring
    · intro hr1 hr2 hr3
      rw [e] at hr3 ⊢
      rw [e1]
      simp only [redeemedInvestor, GoInt.add, GoInt.sub, GoInt.mul]
      rw [GoInt.wrap_of_inRange hr1, GoInt.wrap_of_inRange hr2, GoInt.wrap_of_inRange hr3]
      ring

/-- Witness of C18: the subscription of 50 more units after the scenario's
subscription. -/
theorem C18_conservation_witness :
    ∃ inv1 a1,
      readInvestor (ledgerAfter scenarioSubscribed
        (SubscribeAsset investorCaller scenarioSubscribed "investor1" "US1234567890" 50))
        "investor1" = some inv1 ∧
      readAsset (ledgerAfter scenarioSubscribed
        (SubscribeAsset investorCaller scenarioSubscribed "investor1" "US1234567890" 50))
        "US1234567890" = some a1 ∧
      a1.PricePerUnit = 50 ∧
      GoInt.add a1.AvailableUnits (inv1.units "US1234567890") = GoInt.add 900 100 ∧
      GoInt.add inv1.Balance (GoInt.mul 50 (inv1.units "US1234567890")) =
        GoInt.add 5000 (GoInt.mul 50 100) ∧
      (GoInt.InRange (900 - 50) → GoInt.InRange (100 + 50) →
        a1.AvailableUnits + inv1.units "US1234567890" = 900 + 100) ∧
      (GoInt.InRange (50 * 50) → GoInt.InRange (5000 - 50 * 50) → GoInt.InRange (100 + 50) →
        inv1.Balance + 50 * inv1.units "US1234567890" = 5000 + 50 * 100) :=
  (C18_conservation investorCaller scenarioSubscribed "investor1" "US1234567890" 50
    { InvestorID := "investor1", Balance := 5000,
      Subscribed := some [("US1234567890", 100)] }
    { ISIN := "US1234567890", CompanyName := "Tech Corp", AssetType := "Equity",
      TotalUnits := 1000, PricePerUnit := 50, AvailableUnits := 900 }
    (by decide) (by decide) (by decide)).1 (by decide)

/-- Counterexample to C18 as stated, with `investorID ≠ isin` and successful calls.
(1) 4294967296 units at price 4294967296 cost 0 after wrap-around: the balance stays 0
while 4294967296 units are added, and `balance + p * subscribed[isin]` goes from 0 to
18446744073709551616.
(2) One more unit subscribed by an investor who holds 9223372036854775807 units wraps
the holding round to -9223372036854775808: `available_units + subscribed[isin]` goes from
9223372036854775808 to -9223372036854775808. -/
theorem C18_counterexample :
    ((SubscribeAsset investorCaller wrapStore "investor1" "US1234567890" 4294967296).err
        = none ∧
      (readAsset wrapStore "US1234567890").map (fun a => a.PricePerUnit)
        = some 4294967296 ∧
      (readInvestor wrapStore "investor1").map
        (fun i => i.Balance + 4294967296 * i.units "US1234567890") = some 0 ∧
      (readInvestor (ledgerAfter wrapStore
        (SubscribeAsset investorCaller wrapStore "investor1" "US1234567890" 4294967296))
        "investor1").map (fun i => i.Balance + 4294967296 * i.units "US1234567890")
        = some 18446744073709551616) ∧
    ((SubscribeAsset investorCaller fullHoldingStore "investor1" "US1234567890" 1).err
        = none ∧
      (readAsset fullHoldingStore "US1234567890").map (fun a => a.AvailableUnits)
        = some 1 ∧
      (readInvestor fullHoldingStore "investor1").map (fun i => i.units "US1234567890")
        = some 9223372036854775807 ∧
      (readAsset (ledgerAfter fullHoldingStore
        (SubscribeAsset investorCaller fullHoldingStore "investor1" "US1234567890" 1))
        "US1234567890").map (fun a => a.AvailableUnits) = some 0 ∧
      (readInvestor (ledgerAfter fullHoldingStore
        (SubscribeAsset investorCaller fullHoldingStore "investor1" "US1234567890" 1))
        "investor1").map (fun i => i.units "US1234567890")
        = some (-9223372036854775808) ∧
      ¬ ((0 : Int) + -9223372036854775808 = 1 + 9223372036854775807)) := by
  decide

/-- C19, as amended.  A successful `SubscribeAsset` or `RedeemAsset` on
`(investorID, isin)` changes only the values stored under the keys `investorID` and
`isin`, and the asset read back differs from the one read before in its available units
only.  When `investorID ≠ isin`, the investor read back keeps the identifier and the
holdings of every other ISIN.  `GetPortfolio`, successful or not, leaves the whole store
unchanged. -/
theorem C19_frame (cid : ClientIdentity) (rangeOrder : Holdings → Holdings) (st : Store)
    (investorID isin : String) (units : Int) :
    ((SubscribeAsset cid st investorID isin units).err = none →
      (∀ key, key ≠ investorID → key ≠ isin →
        (ledgerAfter st (SubscribeAsset cid st investorID isin units)).get key = st.get key) ∧
      (∃ a a1, readAsset st isin = some a ∧
        readAsset (ledgerAfter st (SubscribeAsset cid st investorID isin units)) isin
          = some a1 ∧
        a1.ISIN = a.ISIN ∧ a1.CompanyName = a.CompanyName ∧ a1.AssetType = a.AssetType ∧
        a1.TotalUnits = a.TotalUnits ∧ a1.PricePerUnit = a.PricePerUnit) ∧
      (investorID ≠ isin → ∃ inv inv1, readInvestor st investorID = some inv ∧
        readInvestor (ledgerAfter st (SubscribeAsset cid st investorID isin units))
          investorID = some inv1 ∧
        inv1.InvestorID = inv.InvestorID ∧
        ∀ other, other ≠ isin → inv1.units other = inv.units other)) ∧
    ((RedeemAsset cid st investorID isin units).err = none →
      (∀ key, key ≠ investorID → key ≠ isin →
        (ledgerAfter st (RedeemAsset cid st investorID isin units)).get key = st.get key) ∧
      (∃ a a1, readAsset st isin = some a ∧
        readAsset (ledgerAfter st (RedeemAsset cid st investorID isin units)) isin
          = some a1 ∧
        a1.ISIN = a.ISIN ∧ a1.CompanyName = a.CompanyName ∧ a1.AssetType = a.AssetType ∧
        a1.TotalUnits = a.TotalUnits ∧ a1.PricePerUnit = a.PricePerUnit) ∧
      (investorID ≠ isin → ∃ inv inv1, readInvestor st investorID = some inv ∧
        readInvestor (ledgerAfter st (RedeemAsset cid st investorID isin units))
          investorID = some inv1 ∧
        inv1.InvestorID = inv.InvestorID ∧
        ∀ other, other ≠ isin → inv1.units other = inv.units other)) ∧
    ledgerAfter st (GetPortfolio rangeOrder st investorID).2 = st := by
  refine ⟨?_, ?_, ledgerAfter_GetPortfolio rangeOrder st investorID⟩
  · intro hok
    obtain ⟨hauth, inv, a, m, hi, ha, hb, hu, hs⟩ := SubscribeAsset_ok_inv hok
    have heq := SubscribeAsset_ok_eq hauth hi ha hb hu hs
    refine ⟨?_, ?_, ?_⟩
    · intro key h1 h2
      rw [heq]
      simp only [ledgerAfter, Store.apply]
      exact Store.get_put_put_ne st _ _ h1 h2
    · refine ⟨a, subscribedAsset a units, ha, ?_, rfl, rfl, rfl, rfl, rfl⟩
      rw [heq]
      simp only [ledgerAfter, Store.apply]
      exact readAsset_put_same _ _ (subscribedAsset_inRange units (readAsset_inRange ha))
    · intro hne
      refine ⟨inv, subscribedInvestor inv a m isin units, hi,
        (SubscribeAsset_after hne hauth hi ha hb hu hs).1, rfl, ?_⟩
      intro other ho
      simp only [Investor.units, subscribedInvestor, hs]
      exact Holdings.get_set_ne m _ (Ne.symm ho)
  · intro hok
    obtain ⟨hauth, inv, a, m, hi, ha, hg, hs⟩ := RedeemAsset_ok_inv hok
    have heq := RedeemAsset_ok_eq hauth hi ha hg hs
    refine ⟨?_, ?_, ?_⟩
    · intro key h1 h2
      rw [heq]
      simp only [ledgerAfter, Store.apply]
      exact Store.get_put_put_ne st _ _ h1 h2
    · refine ⟨a, redeemedAsset a units, ha, ?_, rfl, rfl, rfl, rfl, rfl⟩
      rw [heq]
      simp only [ledgerAfter, Store.apply]
      exact readAsset_put_same _ _ (redeemedAsset_inRange units (readAsset_inRange ha))
    · intro hne
      refine ⟨inv, redeemedInvestor inv a m isin units, hi,
        (RedeemAsset_after hne hauth hi ha hg hs).1, rfl, ?_⟩
      intro other ho
      simp only [Investor.units, redeemedInvestor, hs]
      exact Holdings.get_set_ne m _ (Ne.symm ho)

/-- Witness of C19: the subscription of the scenario of the client driver. -/
theorem C19_frame_witness :
    (∀ key, key ≠ "investor1" → key ≠ "US1234567890" →
      (ledgerAfter scenarioStore
        (SubscribeAsset investorCaller scenarioStore "investor1" "US1234567890" 100)).get key
        = scenarioStore.get key) ∧
    (∃ a a1, readAsset scenarioStore "US1234567890" = some a ∧
      readAsset (ledgerAfter scenarioStore
        (SubscribeAsset investorCaller scenarioStore "investor1" "US1234567890" 100))
        "US1234567890" = some a1 ∧
      a1.ISIN = a.ISIN ∧ a1.CompanyName = a.CompanyName ∧ a1.AssetType = a.AssetType ∧
      a1.TotalUnits = a.TotalUnits ∧ a1.PricePerUnit = a.PricePerUnit) ∧
    ("investor1" ≠ "US1234567890" → ∃ inv inv1,
      readInvestor scenarioStore "investor1" = some inv ∧
      readInvestor (ledgerAfter scenarioStore
        (SubscribeAsset investorCaller scenarioStore "investor1" "US1234567890" 100))
        "investor1" = some inv1 ∧
      inv1.InvestorID = inv.InvestorID ∧
      ∀ other, other ≠ "US1234567890" → inv1.units other = inv.units other) :=
  (C19_frame investorCaller id scenarioStore "investor1" "US1234567890" 100).1 (by decide)

/-- Counterexample to C19 as stated: in the scenario after the subscription, `investor1`
holds 100 units of `US1234567890`.  `SubscribeAsset` with `investorID = isin =
"investor1"` and 0 units succeeds and its asset write replaces the investor record: the
investor read back has the identifier `""` and holds 0 units of `US1234567890`. -/
theorem C19_counterexample :
    (SubscribeAsset investorCaller scenarioSubscribed "investor1" "investor1" 0).err = none ∧
    (readInvestor scenarioSubscribed "investor1").map
      (fun i => (i.InvestorID, i.units "US1234567890")) = some ("investor1", 100) ∧
    (readInvestor (ledgerAfter scenarioSubscribed
      (SubscribeAsset investorCaller scenarioSubscribed "investor1" "investor1" 0))
      "investor1").map (fun i => (i.InvestorID, i.units "US1234567890")) = some ("", 0) ∧
    "US1234567890" ≠ "investor1" ∧ "" ≠ "investor1" ∧ ¬ ((0 : Int) = 100) := by
  decide

/-- C20, the code at the failing inputs.  On stores reached by the contract's own
operations, an authorized call reaches the map update with a nil holdings map and
panics:
(1) the key `investorID` was written by `RegisterAsset` and equals `isin`;
(2) the key `investorID` was written by `RegisterAsset` and differs from `isin`;
(3) an earlier `SubscribeAsset` with `investorID = isin` replaced the investor record by
an asset record. -/
theorem C20_nil_map_panic :
    ((readInvestor assetOnlyStore "US1234567890").map (fun i => i.Subscribed) = some none ∧
      (SubscribeAsset investorCaller assetOnlyStore "US1234567890" "US1234567890" 0).err =
        some (.runtimePanic "assignment to entry in nil map") ∧
      (RedeemAsset investorCaller assetOnlyStore "US1234567890" "US1234567890" 0).err =
        some (.runtimePanic "assignment to entry in nil map")) ∧
    ((SubscribeAsset investorCaller twoAssetsStore "US1234567890" "US0987654321" 0).err =
        some (.runtimePanic "assignment to entry in nil map") ∧
      (RedeemAsset investorCaller twoAssetsStore "US1234567890" "US0987654321" 0).err =
        some (.runtimePanic "assignment to entry in nil map")) ∧
    ((SubscribeAsset investorCaller collisionStore "investor1" "investor1" 0).err = none ∧
      (SubscribeAsset investorCaller
        (ledgerAfter collisionStore
          (SubscribeAsset investorCaller collisionStore "investor1" "investor1" 0))
        "investor1" "investor1" 0).err =
        some (.runtimePanic "assignment to entry in nil map")) := by
  decide

end AssetCC
